import Mathlib

/-
Verification of the BioSpace-DBS knowledge-graph pipeline.

Shallow embedding of the Python source into Lean 4:
  * strings are Lean `String`s, positions are code-point indexes (`ℕ`),
    matching Python `str` indexing;
  * Python floats carrying the small dyadic constants used here (0.7, 1.5,
    score sums, means of such values) are modelled exactly as rationals `ℚ`;
  * Python dicts are modelled as insertion-ordered association lists,
    Python sets as lists with membership-guarded insertion;
  * external collaborators (the regex engine applied to the cue-pattern
    table from the missing `config_m1`, the `fuzzywuzzy` similarity score,
    the SQL store and the graph backend) are oracle parameters.
-/

namespace BioSpace

/-! ## Generic helpers shared by the embedded modules -/

/-- Embedding of Python `str.lower()` (per code point, ASCII-faithful). -/
def pyLower (s : String) : String := ⟨s.data.map Char.toLower⟩

/-- Embedding of Python `str.strip()` (trim surrounding whitespace). -/
def pyStrip (s : String) : String :=
  ⟨((s.data.dropWhile Char.isWhitespace).reverse.dropWhile Char.isWhitespace).reverse⟩

/-- Python regex word character `\w` (ASCII fragment). -/
def isWordChar (c : Char) : Bool := c.isAlphanum || c == '_'

/-- Whether `pat` is a prefix of `cs`. -/
def listIsPrefix : List Char → List Char → Bool
  | [], _ => true
  | _ :: _, [] => false
  | a :: as, b :: bs => a == b && listIsPrefix as bs

/-- Helper scanning all suffixes for an occurrence of `pat`. -/
def containsAux (pat : List Char) : List Char → Bool
  | [] => listIsPrefix pat []
  | c :: cs => listIsPrefix pat (c :: cs) || containsAux pat cs

/-- Embedding of the Python substring test `pat in hay`. -/
def strContains (hay pat : String) : Bool := containsAux pat.data hay.data

/-- Python `set.add` on a set modelled as a duplicate-free list:
append the element only when it is absent. -/
def insertAbsent [DecidableEq α] (l : List α) (a : α) : List α :=
  if a ∈ l then l else l ++ [a]

/-- First-occurrence deduplication, the key order of a Python dict or set
built by repeated insertion. -/
def firstDedup [DecidableEq α] (l : List α) : List α := l.foldl insertAbsent []

/-- First-match lookup in an association list (a Python dict whose keys are
unique holds exactly one binding per key). -/
def lookupFirst [DecidableEq κ] : List (κ × β) → κ → Option β
  | [], _ => none
  | (k, v) :: rest, k' => if k' = k then some v else lookupFirst rest k'

/-- Zero-padded counter rendering, Python `f"{n:05d}"`. -/
def pad5 (n : ℕ) : String :=
  let s := toString n
  ⟨List.replicate (5 - s.length) '0' ++ s.data⟩

/-- Round-half-to-even to an integer, the rounding Python `round` uses. -/
def roundHalfEven (x : ℚ) : ℤ :=
  let f := Int.floor x
  let r := x - f
  if r < 1/2 then f
  else if 1/2 < r then f + 1
  else if f % 2 = 0 then f else f + 1

/-- Embedding of Python `round(x, 3)` on the exact rational value. -/
def round3 (x : ℚ) : ℚ := (roundHalfEven (x * 1000) : ℚ) / 1000

/-- Characters removed by the trailing-punctuation strip
(`re.sub(r"[.,;:!?]+$", "", s)` and `str.rstrip("?!.,;:")`, same set). -/
def trailPunct (c : Char) : Bool := c ∈ ['.', ',', ';', ':', '!', '?']

/-- Remove the maximal trailing run of punctuation characters. -/
def stripTrailingPunct (s : String) : String :=
  ⟨(s.data.reverse.dropWhile trailPunct).reverse⟩

/-- Fueled core of Python `str.replace` (all non-overlapping occurrences,
left to right; `old` is assumed non-empty, as in the synonym table). -/
def pyReplaceAux (old new : List Char) : ℕ → List Char → List Char
  | 0, cs => cs
  | _ + 1, [] => []
  | fuel + 1, c :: cs =>
    if listIsPrefix old (c :: cs) && !old.isEmpty then
      new ++ pyReplaceAux old new fuel ((c :: cs).drop old.length)
    else
      c :: pyReplaceAux old new fuel cs

/-- Embedding of Python `s.replace(old, new)`. -/
def pyReplace (s old new : String) : String :=
  ⟨pyReplaceAux old.data new.data s.data.length s.data⟩

/-! ## 4.1 MentionMatcher — `find_entity_mentions_in_text`
(src/member1_pipeline/relation_pipeline.py, lines 71-111) -/

/-- A located entity mention; Python dict
`{entity_id, surface_form, start, end}` (`end` is a Lean keyword, the
field is called `stop`). -/
structure Mention where
  entity_id : String
  surface_form : String
  start : ℕ
  stop : ℕ
deriving DecidableEq

/-- Length of a mention's `[start, stop)` range. -/
def mentionLen (m : Mention) : ℕ := m.stop - m.start

/-- Whether position `i` of `cs` holds a word character
(out of range counts as non-word, like the edges of a Python string). -/
def wordAt (cs : List Char) (i : ℕ) : Bool := isWordChar (cs.getD i ' ')

/-- Python regex word boundary `\b` at position `i`. -/
def boundaryAt (cs : List Char) (i : ℕ) : Bool :=
  (if i = 0 then false else wordAt cs (i - 1)) != wordAt cs i

/-- Whether the literal word-boundary pattern `\b pat \b` matches `cs`
at position `i`. -/
def matchAt (cs pat : List Char) (i : ℕ) : Bool :=
  listIsPrefix pat (cs.drop i) && boundaryAt cs i && boundaryAt cs (i + pat.length)

/-- Fueled scan embedding `re.finditer` for the literal pattern
`\b pat \b`: leftmost matches, continuing after each match's end. -/
def finditerAux (cs pat : List Char) : ℕ → ℕ → List (ℕ × ℕ)
  | _, 0 => []
  | p, fuel + 1 =>
    if p > cs.length then []
    else if matchAt cs pat p then
      (p, p + pat.length) :: finditerAux cs pat (p + max pat.length 1) fuel
    else finditerAux cs pat (p + 1) fuel

/-- All `\b pat \b` matches of `finditer`, as `(start, end)` pairs. -/
def finditer (cs pat : List Char) : List (ℕ × ℕ) :=
  finditerAux cs pat 0 (cs.length + 1)

/-- Sort order used on raw mentions:
`mentions.sort(key=lambda x: (x['start'], -(x['end'] - x['start'])))`,
start ascending, then length descending. -/
def mentionLe (a b : Mention) : Prop :=
  a.start < b.start ∨ (a.start = b.start ∧ mentionLen b ≤ mentionLen a)

instance : DecidableRel mentionLe := fun a b => by
  unfold mentionLe; infer_instance

/-- Greedy non-overlap filter: keep a mention only when its start is at
least the end of the last accepted mention (`last_end` starts at `-1`). -/
def greedy : List Mention → ℤ → List Mention
  | [], _ => []
  | m :: ms, lastEnd =>
    if lastEnd ≤ (m.start : ℤ) then m :: greedy ms (m.stop : ℤ)
    else greedy ms lastEnd

/-- Raw mention gathering: for every lexicon key (sorted by length,
longest first, stable), every word-boundary occurrence in the lowercased
text becomes a mention carrying the original-case slice. -/
def gatherMentions (text : String) (lexicon : List (String × String)) : List Mention :=
  let cs := text.data
  let csLower := cs.map Char.toLower
  let sortedNames :=
    List.insertionSort (fun a b : String => b.length ≤ a.length) (lexicon.map Prod.fst)
  sortedNames.flatMap (fun name =>
    (finditer csLower name.data).map (fun se =>
      { entity_id := (lookupFirst lexicon name).getD ""
        surface_form := ⟨(cs.drop se.1).take (se.2 - se.1)⟩
        start := se.1
        stop := se.2 }))

/-- Embedding of `find_entity_mentions_in_text`: gather, sort by
(start asc, length desc), then greedily drop overlaps. -/
def find_entity_mentions_in_text (text : String) (lexicon : List (String × String)) :
    List Mention :=
  greedy (List.insertionSort mentionLe (gatherMentions text lexicon)) (-1)

/-! ## 4.3 RelationExtractor, pattern branch —
`extract_relations_by_patterns` (relation_pipeline.py, lines 114-168).
The cue-phrase regexes live in `config_m1.RELATION_PATTERNS`, a file not
present under src/, so the flattened stream of regex cue matches
`(relation_type, match.start(), match.end())` for one sentence is an
oracle input to the embedded per-sentence body. -/

/-- One regex cue match inside a sentence, with its relation type. -/
structure CueMatch where
  relation : String
  start : ℕ
  stop : ℕ
deriving DecidableEq

/-- A raw relation candidate, the dict
`{source, relation, target, sentence, confidence}`. -/
structure RelCandidate where
  source : String
  relation : String
  target : String
  sentence : String
  confidence : ℚ
deriving DecidableEq

/-- Embedding of the per-sentence body of `extract_relations_by_patterns`:
re-find the sentence's mentions, require at least two, then for every cue
match pair every mention with `end <= match_end + 50` (source side)
against every mention with `start >= match_start - 50` (target side),
emitting a 0.7-confidence candidate for each pair of distinct entity ids. -/
def extract_relations_by_patterns_sentence (sentence : String)
    (lexicon : List (String × String)) (cues : List CueMatch) : List RelCandidate :=
  let sent_entities := find_entity_mentions_in_text sentence lexicon
  if sent_entities.length < 2 then []
  else
    cues.flatMap (fun m =>
      let source_entities := sent_entities.filter (fun e => e.stop ≤ m.stop + 50)
      let target_entities := sent_entities.filter (fun e => m.start ≤ e.start + 50)
      source_entities.flatMap (fun source =>
        target_entities.filterMap (fun target =>
          if source.entity_id ≠ target.entity_id then
            some { source := source.entity_id
                   relation := m.relation
                   target := target.entity_id
                   sentence := pyStrip sentence
                   confidence := 7/10 }
          else none)))

/-! ## 4.4 RelationAggregator — `deduplicate_relations`
(relation_pipeline.py, lines 322-383). -/

/-- A raw extracted relation after `paper_id` tagging. -/
structure RawRelation where
  source : String
  relation : String
  target : String
  sentence : String
  confidence : ℚ
  paper_id : String
deriving DecidableEq

/-- Grouping key, the ordered triple `(source, relation, target)`. -/
def relKeyOf (r : RawRelation) : String × String × String :=
  (r.source, r.relation, r.target)

/-- Accumulator of one `relation_groups` entry:
`{'papers': set(), 'sentences': [], 'confidence_scores': []}`. -/
structure GroupData where
  papers : List String
  sentences : List String
  confidence_scores : List ℚ
deriving DecidableEq

/-- The empty group a `defaultdict` entry starts from. -/
def emptyGroup : GroupData := ⟨[], [], []⟩

/-- One loop iteration on a group: add the paper id to the paper set,
append the sentence and the confidence. -/
def extendGroup (d : GroupData) (r : RawRelation) : GroupData :=
  { papers := insertAbsent d.papers r.paper_id
    sentences := d.sentences ++ [r.sentence]
    confidence_scores := d.confidence_scores ++ [r.confidence] }

/-- Insert one raw relation into the insertion-ordered group dict. -/
def addRel : List ((String × String × String) × GroupData) → RawRelation →
    List ((String × String × String) × GroupData)
  | [], r => [(relKeyOf r, extendGroup emptyGroup r)]
  | (k, d) :: g, r =>
    if relKeyOf r = k then (k, extendGroup d r) :: g else (k, d) :: addRel g r

/-- The `relation_groups` dict after the grouping loop. -/
def buildGroups (raw : List RawRelation) : List ((String × String × String) × GroupData) :=
  raw.foldl addRel []

/-- An aggregated relation of the deduplicated catalog. -/
structure AggRelation where
  relation_id : String
  source : String
  relation : String
  target : String
  papers : List String
  evidence_count : ℕ
  confidence : ℚ
  sample_sentences : List String
deriving DecidableEq

/-- Build one catalog record from a group (0-based enumeration index;
ids start at `R00001`). -/
def mkAggRelation (i : ℕ) (kd : (String × String × String) × GroupData) : AggRelation :=
  { relation_id := "R" ++ pad5 (i + 1)
    source := kd.1.1
    relation := kd.1.2.1
    target := kd.1.2.2
    papers := kd.2.papers
    evidence_count := kd.2.papers.length
    confidence := round3 (kd.2.confidence_scores.sum / kd.2.confidence_scores.length)
    sample_sentences := kd.2.sentences.take 3 }

/-- Embedding of `deduplicate_relations`: group by the ordered triple,
aggregate each group, then stable-sort by evidence count descending. -/
def deduplicate_relations (raw : List RawRelation) : List AggRelation :=
  let relation_catalog := (buildGroups raw).enum.map (fun p => mkAggRelation p.1 p.2)
  List.insertionSort (fun a b : AggRelation => b.evidence_count ≤ a.evidence_count)
    relation_catalog

/-! ## 4.5 ImportanceScorer and Filter — `calculate_entity_scores`,
`filter_entities`, `filter_relations`, `run_filtering`
(src/ner_pipeline/filter_entities.py). -/

/-- A catalog entity as read from `entities.json` (the fields the
filtering stage uses). -/
structure Entity where
  entity_id : String
  name : String
  type : String
  papers : List String
deriving DecidableEq

/-- A catalog relation as read from `relations.json` (the fields the
filtering stage uses). -/
structure Relation where
  source : String
  relation : String
  target : String
deriving DecidableEq

/-- The module constant `IMPORTANCE_THRESHOLD = 20`. -/
def IMPORTANCE_THRESHOLD : ℚ := 20

/-- `entity_relation_count[eid]`: each relation increments both its
source and its target (twice for a self-loop). -/
def relCount (relations : List Relation) (eid : String) : ℕ :=
  (relations.flatMap (fun r => [r.source, r.target])).count eid

/-- `len(entity_relation_types[eid])`: the number of distinct relation
types on relations touching `eid`. -/
def relTypeDiversity (relations : List Relation) (eid : String) : ℕ :=
  (((relations.filter (fun r => r.source = eid ∨ r.target = eid)).map
    (fun r => r.relation)).dedup).length

/-- One `entity_scores` value. -/
structure ScoreData where
  score : ℚ
  paper_count : ℕ
  relation_count : ℕ
  diversity : ℕ
  passes_threshold : Bool
deriving DecidableEq

/-- Score data of one entity against a relation catalog:
`score = papers*1.0 + relations*2.0 + diversity*1.5`. -/
def mkScoreData (relations : List Relation) (e : Entity) : ScoreData :=
  let paper_count := e.papers.length
  let relation_count := relCount relations e.entity_id
  let diversity := relTypeDiversity relations e.entity_id
  let score : ℚ := paper_count * 1 + relation_count * 2 + diversity * (3/2)
  { score := score
    paper_count := paper_count
    relation_count := relation_count
    diversity := diversity
    passes_threshold := decide (IMPORTANCE_THRESHOLD ≤ score) }

/-- Python dict assignment `d[k] = v`: overwrite in place or append. -/
def dictSet [DecidableEq κ] : List (κ × β) → κ → β → List (κ × β)
  | [], k, v => [(k, v)]
  | (k', v') :: rest, k, v =>
    if k = k' then (k, v) :: rest else (k', v') :: dictSet rest k v

/-- Embedding of `calculate_entity_scores`: the `entity_scores` dict. -/
def calculate_entity_scores (entities : List Entity) (relations : List Relation) :
    List (String × ScoreData) :=
  entities.foldl (fun acc e => dictSet acc e.entity_id (mkScoreData relations e)) []

/-- A filtered entity: the original entity plus the score metadata the
filter copies onto it. -/
structure FilteredEntity where
  entity : Entity
  importance_score : ℚ
  relation_count : ℕ
deriving DecidableEq

/-- Embedding of `filter_entities`: keep entities whose score entry has
`passes_threshold` (the `threshold` parameter is accepted but, as in the
source, not consulted — the flag was computed against the module
constant). A missing score entry would raise `KeyError` in Python and
cannot occur in the pipeline; it is modelled as dropping the entity. -/
def filter_entities (entities : List Entity) (entity_scores : List (String × ScoreData))
    (threshold : ℚ) : List FilteredEntity :=
  entities.filterMap (fun e =>
    match lookupFirst entity_scores e.entity_id with
    | some sd =>
      if sd.passes_threshold then some ⟨e, sd.score, sd.relation_count⟩ else none
    | none => none)

/-- Embedding of `filter_relations`: keep relations whose both endpoints
are among the filtered entity ids. -/
def filter_relations (relations : List Relation) (filtered_entity_ids : List String) :
    List Relation :=
  relations.filter (fun rel =>
    rel.source ∈ filtered_entity_ids ∧ rel.target ∈ filtered_entity_ids)

/-- The pure core of `run_filtering`: score against the full catalog,
filter entities, then filter relations by surviving endpoints. -/
def run_filtering_core (entities : List Entity) (relations : List Relation) :
    List FilteredEntity × List Relation :=
  let entity_scores := calculate_entity_scores entities relations
  let filtered_entities := filter_entities entities entity_scores IMPORTANCE_THRESHOLD
  let filtered_entity_ids := filtered_entities.map (fun e => e.entity.entity_id)
  (filtered_entities, filter_relations relations filtered_entity_ids)

/-! ## 4.2 EntityResolver — `normalize_entity_name` and
`deduplicate_entities` (src/ner_pipeline/entity_pipeline.py, lines
214-341). The synonym table `ENTITY_SYNONYMS` and the similarity score
`fuzz.ratio` come from `config_m1` and the external `fuzzywuzzy`
library, neither of which is under src/; both are parameters here. -/

/-- A raw extracted entity mention (the fields deduplication uses). -/
structure RawMention where
  paper_id : String
  surface_form : String
  type : String
deriving DecidableEq

/-- Embedding of `normalize_entity_name`: lowercase, strip, drop trailing
punctuation, then consult the synonym table — exact hit returns the
mapped value, otherwise every table key occurring as a substring is
replaced by its value, in table order. -/
def normalize_entity_name (synTable : List (String × String)) (surface_form : String) :
    String :=
  let normalized := stripTrailingPunct (pyStrip (pyLower surface_form))
  match lookupFirst synTable normalized with
  | some v => v
  | none =>
    synTable.foldl
      (fun n kv => if strContains n kv.1 then pyReplace n kv.1 kv.2 else n) normalized

/-- A canonical catalog entity (synonyms and papers are Python sets,
modelled as duplicate-free lists). -/
structure CatEntity where
  entity_id : String
  name : String
  type : String
  synonyms : List String
  papers : List String
deriving DecidableEq

/-- Mutable state of the deduplication loops: the growing catalog, the
id counter, the paper→entity map, and the per-type `processed_names`. -/
structure DedupState where
  catalog : List CatEntity
  counter : ℕ
  pem : List (String × List String)
  processed : List String
deriving DecidableEq

/-- Python `paper_entity_map[paper_id].add(entity_id)` on a
`defaultdict(set)`. -/
def pemAdd (pem : List (String × List String)) (pid eid : String) :
    List (String × List String) :=
  match lookupFirst pem pid with
  | some l => dictSet pem pid (insertAbsent l eid)
  | none => pem ++ [(pid, [eid])]

/-- The merge scan: walk the catalog and, at the first entity of the
same type whose similarity to the normalized name exceeds 85, absorb the
normalized name into its synonyms and the group's paper ids into its
papers; return the updated catalog and the merge target's id. -/
def mergeInto (ratio : String → String → ℕ) (entity_type normalized_name : String)
    (ent_list : List RawMention) : List CatEntity → Option (List CatEntity × String)
  | [] => none
  | e :: rest =>
    if e.type = entity_type ∧ 85 < ratio normalized_name e.name then
      some ({ e with
              synonyms := insertAbsent e.synonyms normalized_name
              papers := ent_list.foldl (fun ps ent => insertAbsent ps ent.paper_id)
                e.papers } :: rest,
            e.entity_id)
    else
      match mergeInto ratio entity_type normalized_name ent_list rest with
      | some (rest', eid) => some (e :: rest', eid)
      | none => none

/-- Process one `(normalized_name, ent_list)` group of one type: skip
already-processed names, otherwise merge into a similar existing entity
or create a new one whose synonyms are the group's surface forms. -/
def processNameGroup (ratio : String → String → ℕ) (entity_type : String)
    (st : DedupState) (ng : String × List RawMention) : DedupState :=
  let normalized_name := ng.1
  let ent_list := ng.2
  if normalized_name ∈ st.processed then st
  else
    match mergeInto ratio entity_type normalized_name ent_list st.catalog with
    | some (catalog', eid) =>
      { st with
        catalog := catalog'
        pem := ent_list.foldl (fun m ent => pemAdd m ent.paper_id eid) st.pem }
    | none =>
      let entity_id := "E" ++ pad5 st.counter
      let synonyms := firstDedup (ent_list.map (fun ent => ent.surface_form))
      let papers := firstDedup (ent_list.map (fun ent => ent.paper_id))
      { catalog := st.catalog ++ [⟨entity_id, normalized_name, entity_type, synonyms, papers⟩]
        counter := st.counter + 1
        pem := papers.foldl (fun m pid => pemAdd m pid entity_id) st.pem
        processed := st.processed ++ [normalized_name] }

/-- The `name_groups` dict of one type: keys in first-occurrence order of
the normalized names, each with all mentions normalizing to it. -/
def nameGroupsOf (synTable : List (String × String)) (ents : List RawMention) :
    List (String × List RawMention) :=
  (firstDedup (ents.map (fun e => normalize_entity_name synTable e.surface_form))).map
    (fun n => (n, ents.filter (fun e => normalize_entity_name synTable e.surface_form = n)))

/-- Process one entity type: reset `processed_names`, then fold over its
name groups. -/
def processType (synTable : List (String × String)) (ratio : String → String → ℕ)
    (st : DedupState) (tg : String × List RawMention) : DedupState :=
  (nameGroupsOf synTable tg.2).foldl (processNameGroup ratio tg.1)
    { st with processed := [] }

/-- The `entities_by_type` dict: types in first-occurrence order, each
with its mentions. -/
def typeGroupsOf (raw : List RawMention) : List (String × List RawMention) :=
  (firstDedup (raw.map (fun e => e.type))).map
    (fun t => (t, raw.filter (fun e => e.type = t)))

/-- Embedding of `deduplicate_entities`: fold the grouped mentions
through the greedy merge-or-create loop; returns the entity catalog and
the paper→entity map. -/
def deduplicate_entities (synTable : List (String × String))
    (ratio : String → String → ℕ) (raw : List RawMention) :
    List CatEntity × List (String × List String) :=
  let final := (typeGroupsOf raw).foldl (processType synTable ratio) ⟨[], 1, [], []⟩
  (final.catalog, final.pem)

/-! ## 4.7 QueryRouter — `classify_query`, `run_graph_query`,
`run_hybrid_query` (src/dashboard_integration/query_engine.py). The SQL
store and the graph backend are external; they enter as oracle
functions. -/

/-- The module constant `SQL_KEYWORDS`. -/
def SQL_KEYWORDS : List String :=
  ["year", "keyword", "cluster", "abstract", "title", "papers",
   "summary", "journal", "doi", "after", "before"]

/-- The module constant `GRAPH_KEYWORDS`. -/
def GRAPH_KEYWORDS : List String :=
  ["entity", "relation", "connected", "linked", "graph", "node", "edge"]

/-- The module constant `HYBRID_HOOKS`. -/
def HYBRID_HOOKS : List String :=
  ["related to", "connected to", "and in cluster", "and year", "and keyword"]

/-- Embedding of `classify_query`. -/
def classify_query (q : String) : String :=
  let q_low := pyLower q
  let sql_hit := SQL_KEYWORDS.any (fun kw => strContains q_low kw)
  let graph_hit := GRAPH_KEYWORDS.any (fun kw => strContains q_low kw)
  let hybrid_hit := HYBRID_HOOKS.any (fun h => strContains q_low h)
  if hybrid_hit || (sql_hit && graph_hit) then "HYBRID"
  else if graph_hit then "GRAPH"
  else "SQL"

/-- Leading maximal run of word characters. -/
def takeWhileWord (cs : List Char) : List Char := cs.takeWhile (fun c => isWordChar c)

/-- Embedding of `re.search(r"related to (\w+)", q)`: the captured group
of the leftmost position where the literal `related to ` is followed by
at least one word character. -/
def relatedToName : List Char → Option String
  | [] => none
  | c :: cs =>
    if listIsPrefix "related to ".data (c :: cs) && wordAt (c :: cs) 11 then
      some ⟨takeWhileWord ((c :: cs).drop 11)⟩
    else relatedToName cs

/-- An entity as returned by the graph backend (the fields the query
engine reads). -/
structure GraphEntity where
  entity_id : String
  name : String
deriving DecidableEq

/-- A paper row of a SQL result. -/
structure SqlPaper where
  paper_id : String
  title : String
  year : ℤ
deriving DecidableEq

/-- Shape of a `run_sql_query` result: a dict with a `papers` list, or
one with a `keywords` list. -/
inductive SqlResult where
  | papersRes (papers : List SqlPaper)
  | keywordsRes (keywords : List (String × ℚ × List String))
deriving DecidableEq

/-- Shape of a `run_graph_query` result dict: an `entities` listing, an
`(entity, papers)` pair, an `error` message with empty `result`, or the
bare empty `result`. -/
inductive GraphResult where
  | entitiesRes (entities : List GraphEntity)
  | entityPapers (entity : GraphEntity) (papers : List String)
  | errorResult (msg : String)
  | emptyResult
deriving DecidableEq

/-- Embedding of `run_graph_query` over backend oracles
(`get_entity_by_name`, `get_related_papers`, `get_entities`). -/
def run_graph_query (graphUp : Bool) (get_entity_by_name : String → Option GraphEntity)
    (get_related_papers : String → List String)
    (get_entities : Option String → List GraphEntity) (user_query : String) :
    GraphResult :=
  if !graphUp then .errorResult "Graph client unavailable"
  else
    let q := pyLower user_query
    if strContains q "entity" || strContains q "entities" then
      let entity_type :=
        if strContains q "gene" then some "gene"
        else if strContains q "protein" then some "protein"
        else if strContains q "organism" then some "organism"
        else if strContains q "condition" then some "condition"
        else none
      .entitiesRes (get_entities entity_type)
    else
      match relatedToName q.data with
      | some entity_name =>
        match get_entity_by_name entity_name with
        | some entity => .entityPapers entity (get_related_papers entity.entity_id)
        | none => .errorResult ("Entity \x27" ++ entity_name ++ "\x27 not found")
      | none => .emptyResult

/-- Step 1 of `run_hybrid_query`: the named entity (when the query names
one that resolves) and its graph-derived related paper ids. -/
def hybridGraphPapers (get_entity_by_name : String → Option GraphEntity)
    (get_related_papers : String → List String) (user_query : String) :
    Option GraphEntity × List String :=
  match relatedToName (pyLower user_query).data with
  | some entity_name =>
    match get_entity_by_name entity_name with
    | some entity => (some entity, get_related_papers entity.entity_id)
    | none => (none, [])
  | none => (none, [])

/-- The dict `run_hybrid_query` returns in its hybrid branch. -/
structure HybridResult where
  entity : Option GraphEntity
  graph_papers : List String
  sql : SqlResult
  combined : List SqlPaper
deriving DecidableEq

/-- A `run_hybrid_query` return value: the hybrid dict, or the plain SQL
result of the graph-unavailable fallback. -/
inductive HybridOut where
  | hybrid (r : HybridResult)
  | sqlOnly (r : SqlResult)
deriving DecidableEq

/-- Embedding of `run_hybrid_query`: graph papers, then the SQL result,
then the combination — SQL papers filtered to the graph id set when the
set is non-empty, passed through unfiltered when it is empty. -/
def run_hybrid_query (graphUp : Bool) (get_entity_by_name : String → Option GraphEntity)
    (get_related_papers : String → List String) (run_sql_query : String → SqlResult)
    (user_query : String) : HybridOut :=
  if !graphUp then .sqlOnly (run_sql_query user_query)
  else
    let ei := hybridGraphPapers get_entity_by_name get_related_papers user_query
    let related_papers := ei.2
    let sql_results := run_sql_query user_query
    let combined :=
      match sql_results with
      | .papersRes sql_papers =>
        if related_papers.isEmpty then sql_papers
        else sql_papers.filter (fun p => p.paper_id ∈ related_papers)
      | .keywordsRes _ => []
    .hybrid ⟨ei.1, related_papers, sql_results, combined⟩

/-! ## 4.6 GraphStore cache — `_cached_get_related_papers`
(query_engine.py, lines 36-45): `functools.lru_cache(maxsize=100)`
around the backend call, with exceptions converted to an empty tuple. -/

/-- Drop the binding of `k` from an association list. -/
def eraseKey [DecidableEq κ] (l : List (κ × β)) (k : κ) : List (κ × β) :=
  l.filter (fun kv => kv.1 ≠ k)

/-- State of one `lru_cache`: entries most-recent-first, plus the number
of backend invocations made so far. -/
structure CacheState where
  entries : List ((String × ℕ) × List String)
  backend_calls : ℕ
deriving DecidableEq

/-- Embedding of one call to `_cached_get_related_papers` keyed on
`(entity_id, limit)`: a hit returns the cached tuple and refreshes its
recency; a miss invokes the backend (an exception yields the empty
list), stores the result as most recent, and evicts beyond `maxsize`. -/
def cached_get_related_papers (maxsize : ℕ)
    (backend : String × ℕ → Except String (List String)) (st : CacheState)
    (k : String × ℕ) : List String × CacheState :=
  match lookupFirst st.entries k with
  | some v => (v, { st with entries := (k, v) :: eraseKey st.entries k })
  | none =>
    let v :=
      match backend k with
      | .ok papers => papers
      | .error _ => []
    (v, { entries := ((k, v) :: st.entries).take maxsize
          backend_calls := st.backend_calls + 1 })

/-- Run a sequence of calls against a fresh cache, keeping the state. -/
def runCachedCalls (maxsize : ℕ) (backend : String × ℕ → Except String (List String))
    (ks : List (String × ℕ)) : CacheState :=
  ks.foldl (fun st k => (cached_get_related_papers maxsize backend st k).2) ⟨[], 0⟩

/-! ## 4.8 NLToGraphQueryTranslator — `NLToCypherConverter.convert`
(src/nosql/nl_to_cypher.py). The regex engine is external: an oracle
maps a pattern source string and the (lowered, stripped) query to the
captured groups of its leftmost match, `none` when the pattern does not
match. Optional groups capture `Option String` values. -/

/-- One `(pattern, cypher_template, description)` rule. -/
structure CypherRule where
  pattern : String
  cypher : String
  description : String
deriving DecidableEq

/-- The fixed ordered rule list `self.patterns`. -/
def nlPatterns : List CypherRule :=
  [⟨"what (?:affects|impacts|influences) (.+)",
    "MATCH (n:Entity)-[r:AFFECTS|INCREASES|DECREASES|INDUCES]->(m:Entity) WHERE toLower(m.name) = toLower($entity) RETURN n.name as source, r.relation_type as relation, m.name as target, r.evidence_count as evidence, r.confidence as confidence ORDER BY r.evidence_count DESC LIMIT 20",
    "Finding what affects {entity}"⟩,
   ⟨"what (?:is )?affected by (.+)",
    "MATCH (n:Entity)-[r:AFFECTS|INCREASES|DECREASES|INDUCES]->(m:Entity) WHERE toLower(n.name) = toLower($entity) RETURN n.name as source, r.relation_type as relation, m.name as target, r.evidence_count as evidence, r.confidence as confidence ORDER BY r.evidence_count DESC LIMIT 20",
    "Finding what is affected by {entity}"⟩,
   ⟨"what causes (.+)",
    "MATCH (n:Entity)-[r]->(m:Entity) WHERE toLower(m.name) = toLower($entity) AND (r.relation_type = \x27causes\x27 OR r.relation_type = \x27induces\x27) RETURN n.name as source, r.relation_type as relation, m.name as target, r.evidence_count as evidence, r.confidence as confidence ORDER BY r.evidence_count DESC LIMIT 20",
    "Finding what causes {entity}"⟩,
   ⟨"what (increases|decreases) (.+)",
    "MATCH (n:Entity)-[r]->(m:Entity) WHERE toLower(m.name) = toLower($entity) AND r.relation_type = $relation RETURN n.name as source, r.relation_type as relation, m.name as target, r.evidence_count as evidence, r.confidence as confidence ORDER BY r.evidence_count DESC LIMIT 20",
    "Finding what {relation} {entity}"⟩,
   ⟨"(?:show|find|get) (?:relationships|relations|connections) (?:for|of) (.+)",
    "MATCH (n:Entity)-[r]-(m:Entity) WHERE toLower(n.name) = toLower($entity) RETURN n.name as entity1, r.relation_type as relation, m.name as entity2, r.evidence_count as evidence, r.confidence as confidence ORDER BY r.evidence_count DESC LIMIT 30",
    "Finding all relationships for {entity}"⟩,
   ⟨"(?:find|show|get) (gene|protein|tissue|condition|organism|chemical|disease)s? (?:related to|associated with) (.+)",
    "MATCH (n:Entity)-[r]-(m:Entity) WHERE toLower(m.name) = toLower($entity) AND n.type = $type RETURN n.name as name, n.type as type, r.relation_type as relation, m.name as related_to, r.evidence_count as evidence ORDER BY r.evidence_count DESC LIMIT 20",
    "Finding {type} related to {entity}"⟩,
   ⟨"(?:what are |show |find )?(?:the )?top (\\d+)? ?entities",
    "MATCH (e:Entity) RETURN e.name as name, e.type as type, e.importance_score as score, size(e.papers) as papers ORDER BY e.importance_score DESC LIMIT $limit",
    "Finding top {limit} entities"⟩,
   ⟨"(?:show|find|get|list) (?:all )?(gene|protein|tissue|condition|organism|chemical|disease|cell_type|assay)s?$",
    "MATCH (e:Entity) WHERE e.type = $type RETURN e.name as name, e.type as type, e.importance_score as score, size(e.papers) as papers ORDER BY e.importance_score DESC LIMIT 30",
    "Finding all {type} entities"⟩,
   ⟨"(?:path|connection) between (.+) and (.+)",
    "MATCH path = shortestPath((a:Entity)-[*..4]-(b:Entity)) WHERE toLower(a.name) = toLower($entity1) AND toLower(b.name) = toLower($entity2) WITH path, relationships(path) as rels, nodes(path) as nodes RETURN [n in nodes | n.name] as path_nodes, [r in rels | r.relation_type] as relations, length(path) as path_length LIMIT 5",
    "Finding path between {entity1} and {entity2}"⟩,
   ⟨"(?:papers|studies|research) (?:about|on|for) (.+)",
    "MATCH (e:Entity) WHERE toLower(e.name) = toLower($entity) RETURN e.name as entity, e.papers as paper_ids, size(e.papers) as paper_count ORDER BY size(e.papers) DESC",
    "Finding papers about {entity}"⟩]

/-- A value of the Cypher parameter dict: a string or an int. -/
inductive ParamValue where
  | str (v : String)
  | int (v : ℤ)
deriving DecidableEq

/-- Result triple of `convert`; `Except` models a raised exception
(calling `.strip()` on an unmatched optional group). -/
abbrev ConvertResult :=
  Except Unit (Option String × Option String × Option (List (String × ParamValue)))

/-- Python `group.strip()` — raises on `None`. -/
def stripGroup : Option String → Except Unit String
  | some g => .ok (pyStrip g)
  | none => .error ()

/-- Python `group.strip().rstrip("?!.,;:")` — raises on `None`. -/
def stripPunctGroup : Option String → Except Unit String
  | some g => .ok (stripTrailingPunct (pyStrip g))
  | none => .error ()

/-- Python `description.format(**desc_subs)`: replace each `{key}`
placeholder by its substitution. -/
def formatDesc (desc : String) (subs : List (String × String)) : String :=
  subs.foldl (fun d kv => pyReplace d ("\x7b" ++ kv.1 ++ "\x7d") kv.2) desc

/-- Build the return triple once rule `r` matched with `groups`: captured
groups become bound parameters and description substitutions; the Cypher
text is the rule's template, untouched. -/
def buildRuleResult (rm : String → String → Option (List (Option String)))
    (q : String) (r : CypherRule) (groups : List (Option String)) : ConvertResult :=
  if groups.length = 1 then
    match stripPunctGroup (groups.getD 0 none) with
    | .error e => .error e
    | .ok entity =>
      let base :=
        if strContains r.cypher "$type" then ([("type", ParamValue.str entity)], [("type", entity)])
        else ([("entity", ParamValue.str entity)], [("entity", entity)])
      let params := base.1 ++ [("limit", ParamValue.int 10)]
      let desc_subs := base.2
      if strContains r.cypher "$limit" then
        match rm "top (\\d+)" q with
        | some gs2 =>
          match gs2.getD 0 none with
          | some d =>
            .ok (some r.cypher,
                 some (formatDesc r.description (desc_subs ++ [("limit", d)])),
                 some (dictSet params "limit" (ParamValue.int ((d.toNat?).getD 0))))
          | none => .error ()
        | none => .ok (some r.cypher, some (formatDesc r.description desc_subs), some params)
      else .ok (some r.cypher, some (formatDesc r.description desc_subs), some params)
  else if groups.length = 2 then
    if strContains r.cypher "$entity1" then
      match stripPunctGroup (groups.getD 0 none), stripPunctGroup (groups.getD 1 none) with
      | .ok e1, .ok e2 =>
        .ok (some r.cypher,
             some (formatDesc r.description [("entity1", e1), ("entity2", e2)]),
             some [("entity1", ParamValue.str e1), ("entity2", ParamValue.str e2)])
      | _, _ => .error ()
    else if strContains r.cypher "$type" then
      match stripGroup (groups.getD 0 none), stripPunctGroup (groups.getD 1 none) with
      | .ok t, .ok e =>
        .ok (some r.cypher,
             some (formatDesc r.description [("type", t), ("entity", e)]),
             some [("type", ParamValue.str t), ("entity", ParamValue.str e)])
      | _, _ => .error ()
    else if strContains r.cypher "$relation" then
      match stripGroup (groups.getD 0 none), stripPunctGroup (groups.getD 1 none) with
      | .ok rel, .ok e =>
        .ok (some r.cypher,
             some (formatDesc r.description [("relation", rel), ("entity", e)]),
             some [("relation", ParamValue.str rel), ("entity", ParamValue.str e)])
      | _, _ => .error ()
    else
      match stripPunctGroup (groups.getD 1 none) with
      | .ok e =>
        .ok (some r.cypher, some (formatDesc r.description [("entity", e)]),
             some [("entity", ParamValue.str e)])
      | .error er => .error er
  else
    .ok (some r.cypher, some (formatDesc r.description []), some [])

/-- First-match scan over the rule list. -/
def convertGo (rm : String → String → Option (List (Option String))) (q : String) :
    List CypherRule → ConvertResult
  | [] => .ok (none, none, none)
  | r :: rest =>
    match rm r.pattern q with
    | some groups => buildRuleResult rm q r groups
    | none => convertGo rm q rest

/-- Embedding of `NLToCypherConverter.convert`: lower and strip the
query, try the rules in order, first match wins; no match yields the
explicit `(None, None, None)` signal. -/
def convert (rm : String → String → Option (List (Option String))) (nl_query : String) :
    ConvertResult :=
  convertGo rm (pyStrip (pyLower nl_query)) nlPatterns

/-- A specification-side shorthand (from spec section 4.5): the importance
score formula `papers*1.0 + relations*2.0 + relation_type_diversity*1.5`
evaluated against a relation catalog. -/
def specScore (relations : List Relation) (e : Entity) : ℚ :=
  (e.papers.length : ℚ) * 1 + (relCount relations e.entity_id : ℚ) * 2
    + (relTypeDiversity relations e.entity_id : ℚ) * (3/2)

/-! ## Helper lemmas -/

theorem mem_insertAbsent [DecidableEq α] {l : List α} {a b : α} :
    a ∈ insertAbsent l b ↔ a ∈ l ∨ a = b := by
  unfold insertAbsent
  split
  · constructor
    · exact Or.inl
    · rintro (h | rfl)
      · exact h
      · assumption
  · simp

theorem insertAbsent_nodup [DecidableEq α] {l : List α} (h : l.Nodup) (a : α) :
    (insertAbsent l a).Nodup := by
  unfold insertAbsent
  split
  · exact h
  · simpa [List.nodup_append] using ⟨h, by assumption⟩

theorem foldl_insertAbsent_mem [DecidableEq α] {l acc : List α} {a : α} :
    a ∈ l.foldl insertAbsent acc ↔ a ∈ acc ∨ a ∈ l := by
  induction l generalizing acc with
  | nil => simp
  | cons b t ih => simp [List.foldl_cons, ih, mem_insertAbsent]; tauto

theorem mem_firstDedup [DecidableEq α] {l : List α} {a : α} :
    a ∈ firstDedup l ↔ a ∈ l := by
  unfold firstDedup; simp [foldl_insertAbsent_mem]

theorem foldl_insertAbsent_nodup [DecidableEq α] {l acc : List α} (h : acc.Nodup) :
    (l.foldl insertAbsent acc).Nodup := by
  induction l generalizing acc with
  | nil => exact h
  | cons b t ih => exact ih (insertAbsent_nodup h b)

theorem nodup_firstDedup [DecidableEq α] (l : List α) : (firstDedup l).Nodup :=
  foldl_insertAbsent_nodup List.nodup_nil

theorem lookupFirst_dictSet_self [DecidableEq κ] (l : List (κ × β)) (k : κ) (v : β) :
    lookupFirst (dictSet l k v) k = some v := by
  induction l with
  | nil => simp [dictSet, lookupFirst]
  | cons kv t ih =>
    obtain ⟨k', v'⟩ := kv
    by_cases h : k = k'
    · subst h; simp [dictSet, lookupFirst]
    · simp [dictSet, lookupFirst, h, ih]

theorem lookupFirst_dictSet_ne [DecidableEq κ] (l : List (κ × β)) (k k' : κ) (v : β)
    (h : k' ≠ k) : lookupFirst (dictSet l k v) k' = lookupFirst l k' := by
  induction l with
  | nil => simp [dictSet, lookupFirst, h]
  | cons kv t ih =>
    obtain ⟨k₀, v₀⟩ := kv
    by_cases h0 : k = k₀
    · subst h0; simp [dictSet, lookupFirst, h]
    · by_cases h1 : k' = k₀ <;> simp [dictSet, lookupFirst, h0, h1, ih]

/-! ## Claim C5: MentionMatcher output is non-overlapping, sorted, and
longest-wins at tied starts -/

instance : IsTotal Mention mentionLe := by
  constructor
  intro a b
  simp only [mentionLe]
  rcases Nat.lt_trichotomy a.start b.start with h | h | h
  · exact Or.inl (Or.inl h)
  · rcases Nat.le_total (mentionLen b) (mentionLen a) with hl | hl
    · exact Or.inl (Or.inr ⟨h, hl⟩)
    · exact Or.inr (Or.inr ⟨h.symm, hl⟩)
  · exact Or.inr (Or.inl h)

instance : IsTrans Mention mentionLe := by
  constructor
  intro a b c hab hbc
  simp only [mentionLe, mentionLen] at *
  omega

theorem finditerAux_stop_eq {cs pat : List Char} :
    ∀ {p fuel : ℕ} {se : ℕ × ℕ}, se ∈ finditerAux cs pat p fuel →
      se.2 = se.1 + pat.length := by
  intro p fuel
  induction fuel generalizing p with
  | zero => intro se h; simp [finditerAux] at h
  | succ n ih =>
    intro se h
    unfold finditerAux at h
    split at h
    · simp at h
    · split at h
      · rcases List.mem_cons.mp h with rfl | h'
        · rfl
        · exact ih h'
      · exact ih h

theorem gatherMentions_start_le_stop {text : String} {lexicon : List (String × String)} :
    ∀ m ∈ gatherMentions text lexicon, m.start ≤ m.stop := by
  intro m hm
  unfold gatherMentions at hm
  simp only [List.mem_flatMap, List.mem_map] at hm
  obtain ⟨name, _, se, hse, rfl⟩ := hm
  have := finditerAux_stop_eq hse
  simp [this]

theorem greedy_mem {l : List Mention} {lastEnd : ℤ} {m : Mention}
    (hs : ∀ x ∈ l, x.start ≤ x.stop) (hm : m ∈ greedy l lastEnd) :
    m ∈ l ∧ lastEnd ≤ (m.start : ℤ) := by
  induction l generalizing lastEnd with
  | nil => simp [greedy] at hm
  | cons a t ih =>
    unfold greedy at hm
    split at hm
    · rcases List.mem_cons.mp hm with rfl | h'
      · exact ⟨List.mem_cons_self _ _, by assumption⟩
      · obtain ⟨hmem, hle⟩ := ih (fun x hx => hs x (List.mem_cons_of_mem _ hx)) h'
        refine ⟨List.mem_cons_of_mem _ hmem, ?_⟩
        have h1 : lastEnd ≤ (a.start : ℤ) := by assumption
        have h2 : (a.start : ℤ) ≤ (a.stop : ℤ) := by
          exact_mod_cast hs a (List.mem_cons_self _ _)
        omega
    · obtain ⟨hmem, hle⟩ := ih (fun x hx => hs x (List.mem_cons_of_mem _ hx)) hm
      exact ⟨List.mem_cons_of_mem _ hmem, hle⟩

theorem greedy_pairwise {l : List Mention} {lastEnd : ℤ}
    (hs : ∀ x ∈ l, x.start ≤ x.stop) :
    (greedy l lastEnd).Pairwise (fun a b => a.stop ≤ b.start) := by
  induction l generalizing lastEnd with
  | nil => simp [greedy]
  | cons a t ih =>
    unfold greedy
    split
    · refine List.Pairwise.cons ?_ (ih (fun x hx => hs x (List.mem_cons_of_mem _ hx)))
      intro b hb
      have := (greedy_mem (fun x hx => hs x (List.mem_cons_of_mem _ hx)) hb).2
      exact_mod_cast this
    · exact ih (fun x hx => hs x (List.mem_cons_of_mem _ hx))

theorem greedy_tied_start {l : List Mention} {lastEnd : ℤ}
    (hp : l.Pairwise mentionLe) (hs : ∀ x ∈ l, x.start ≤ x.stop) :
    ∀ m ∈ greedy l lastEnd, ∀ m' ∈ l, m'.start = m.start →
      mentionLen m' ≤ mentionLen m := by
  induction l generalizing lastEnd with
  | nil => simp [greedy]
  | cons a t ih =>
    have hpa := List.pairwise_cons.mp hp
    have hst : ∀ x ∈ t, x.start ≤ x.stop := fun x hx => hs x (List.mem_cons_of_mem _ hx)
    intro m hm m' hm' hstart
    unfold greedy at hm
    split at hm
    · rcases List.mem_cons.mp hm with rfl | hmg
      · rcases List.mem_cons.mp hm' with rfl | hm't
        · exact le_refl _
        · rcases hpa.1 m' hm't with hlt | ⟨_, hle⟩
          · omega
          · exact hle
      · rcases List.mem_cons.mp hm' with rfl | hm't
        · have hstop := (greedy_mem hst hmg).2
          have h2 : (m'.start : ℤ) ≤ (m'.stop : ℤ) := by
            exact_mod_cast hs m' (List.mem_cons_self _ _)
          have : mentionLen m' = 0 := by
            simp only [mentionLen]; omega
          simp [this]
        · exact ih hpa.2 hst m hmg m' hm't hstart
    · rcases List.mem_cons.mp hm' with rfl | hm't
      · have := (greedy_mem hst hm).2
        have hlt : ¬ lastEnd ≤ (m'.start : ℤ) := by assumption
        omega
      · exact ih hpa.2 hst m hm m' hm't hstart

theorem mem_sorted_gather {text : String} {lexicon : List (String × String)} {m : Mention} :
    m ∈ List.insertionSort mentionLe (gatherMentions text lexicon) ↔
      m ∈ gatherMentions text lexicon :=
  (List.perm_insertionSort mentionLe (gatherMentions text lexicon)).mem_iff

/-- Claim C5: for every input text and lexicon, `find_entity_mentions_in_text`
returns mentions that are pairwise non-overlapping (each earlier mention ends
at or before each later one starts) and sorted by start ascending, and at any
tied start the longest gathered match wins: every kept mention's length is
maximal among raw matches sharing its start offset. -/
theorem find_entity_mentions_nonoverlap_sorted (text : String)
    (lexicon : List (String × String)) :
    ((find_entity_mentions_in_text text lexicon).Pairwise
        (fun a b => a.stop ≤ b.start ∧ a.start ≤ b.start)) ∧
    (∀ m ∈ find_entity_mentions_in_text text lexicon,
      ∀ m' ∈ gatherMentions text lexicon, m'.start = m.start →
        mentionLen m' ≤ mentionLen m) := by
  have hs : ∀ x ∈ List.insertionSort mentionLe (gatherMentions text lexicon),
      x.start ≤ x.stop := by
    intro x hx
    exact gatherMentions_start_le_stop x (mem_sorted_gather.mp hx)
  constructor
  · have hpw : (greedy (List.insertionSort mentionLe (gatherMentions text lexicon))
        (-1)).Pairwise (fun a b => a.stop ≤ b.start) := greedy_pairwise hs
    unfold find_entity_mentions_in_text
    refine List.Pairwise.imp_of_mem ?_ hpw
    intro a b ha hb hab
    have ha' : a.start ≤ a.stop := by
      have := (greedy_mem hs ha).1
      exact hs a this
    exact ⟨hab, le_trans ha' hab⟩
  · intro m hm m' hm' hstart
    have hp : (List.insertionSort mentionLe (gatherMentions text lexicon)).Pairwise
        mentionLe := by
      have := List.sorted_insertionSort mentionLe (gatherMentions text lexicon)
      exact this
    exact greedy_tied_start hp hs m hm m' (mem_sorted_gather.mpr hm') hstart

/-- Witness for C5 at a concrete text and lexicon: in
`"bone and bone loss"` the raw match `"bone"` at 9-13 ties start offset 9
with the kept longer match `"bone loss"` at 9-18 and is therefore no longer
than it. -/
theorem find_entity_mentions_nonoverlap_sorted_witness :
    mentionLen ⟨"E1", "bone", 9, 13⟩ ≤ mentionLen ⟨"E2", "bone loss", 9, 18⟩ :=
  (find_entity_mentions_nonoverlap_sorted "bone and bone loss"
      [("bone", "E1"), ("bone loss", "E2")]).2
    ⟨"E2", "bone loss", 9, 18⟩ (by decide) ⟨"E1", "bone", 9, 13⟩ (by decide) (by decide)

/-! ## Claim C3: pattern-based extractor on the spec scenario -/

/-- Claim C3 (failing input): with mentions `microgravity` at 10-22 and
`bone` at 40-44 and the cue `affects` at 23-30, the code's windows
(`end <= match_end + 50` for sources, `start >= match_start - 50` for
targets) admit both mentions on both sides, so it emits TWO candidates —
`(microgravity, affects, bone)` and the reversed
`(bone, affects, microgravity)` — where the claim and the code's own
comments ("source ... before", "target ... after") call for exactly one. -/
theorem extract_relations_scenario_two_candidates :
    extract_relations_by_patterns_sentence
        "ABCD EFGH microgravity affects skeletal bone"
        [("microgravity", "E1"), ("bone", "E2")] [⟨"affects", 23, 30⟩] =
      [⟨"E1", "affects", "E2", "ABCD EFGH microgravity affects skeletal bone", 7/10⟩,
       ⟨"E2", "affects", "E1", "ABCD EFGH microgravity affects skeletal bone", 7/10⟩] := by
  rfl

/-! ## Claim C1: referential integrity of the filtered graph -/

theorem run_filtering_endpoints (entities : List Entity) (relations : List Relation) :
    ∀ rel ∈ (run_filtering_core entities relations).2,
      rel.source ∈ (run_filtering_core entities relations).1.map
          (fun fe => fe.entity.entity_id) ∧
      rel.target ∈ (run_filtering_core entities relations).1.map
          (fun fe => fe.entity.entity_id) := by
  intro rel hrel
  unfold run_filtering_core filter_relations at hrel ⊢
  simp only [List.mem_filter, decide_eq_true_eq] at hrel
  exact hrel.2

/-- Claim C1: in every run of the filtering pipeline, every relation of the
filtered relation set has both its source and its target entity id among the
filtered entity ids — the filtered graph never references an absent entity. -/
theorem run_filtering_referential_integrity (entities : List Entity)
    (relations : List Relation) :
    ∀ rel ∈ (run_filtering_core entities relations).2,
      rel.source ∈ (run_filtering_core entities relations).1.map
          (fun fe => fe.entity.entity_id) ∧
      rel.target ∈ (run_filtering_core entities relations).1.map
          (fun fe => fe.entity.entity_id) :=
  run_filtering_endpoints entities relations

/-- Witness for C1 at a concrete catalog: the self-relation on the
high-scoring entity `B` survives filtering with both endpoints present. -/
theorem run_filtering_referential_integrity_witness :
    (⟨"B", "affects", "B"⟩ : Relation) ∈
      (run_filtering_core
        [⟨"B", "b", "gene",
          ["a1", "a2", "a3", "a4", "a5", "a6", "a7", "a8", "a9", "a10", "a11", "a12",
           "a13", "a14", "a15"]⟩] [⟨"B", "affects", "B"⟩]).2 ∧
    "B" ∈ (run_filtering_core
        [⟨"B", "b", "gene",
          ["a1", "a2", "a3", "a4", "a5", "a6", "a7", "a8", "a9", "a10", "a11", "a12",
           "a13", "a14", "a15"]⟩] [⟨"B", "affects", "B"⟩]).1.map
      (fun fe => fe.entity.entity_id) := by
  have hev : run_filtering_core
      [⟨"B", "b", "gene",
        ["a1", "a2", "a3", "a4", "a5", "a6", "a7", "a8", "a9", "a10", "a11", "a12",
         "a13", "a14", "a15"]⟩] [⟨"B", "affects", "B"⟩] =
      ([⟨⟨"B", "b", "gene",
          ["a1", "a2", "a3", "a4", "a5", "a6", "a7", "a8", "a9", "a10", "a11", "a12",
           "a13", "a14", "a15"]⟩, 41/2, 2⟩],
       [⟨"B", "affects", "B"⟩]) := by
    norm_num [run_filtering_core, calculate_entity_scores, mkScoreData, filter_entities,
      filter_relations, relCount, relTypeDiversity, dictSet, lookupFirst,
      IMPORTANCE_THRESHOLD, List.filterMap_cons]
  constructor
  · rw [hev]; simp
  · exact (run_filtering_referential_integrity
      [⟨"B", "b", "gene",
        ["a1", "a2", "a3", "a4", "a5", "a6", "a7", "a8", "a9", "a10", "a11", "a12",
         "a13", "a14", "a15"]⟩] [⟨"B", "affects", "B"⟩]
      ⟨"B", "affects", "B"⟩ (by rw [hev]; simp)).1

/-! ## Claim C4: importance scoring formula and threshold filtering -/

theorem foldl_dictSet_lookup_of_ne (relations : List Relation) :
    ∀ (entities : List Entity) (acc : List (String × ScoreData)) (k : String),
      (∀ e ∈ entities, e.entity_id ≠ k) →
      lookupFirst
        (entities.foldl (fun a e => dictSet a e.entity_id (mkScoreData relations e)) acc) k
        = lookupFirst acc k := by
  intro entities
  induction entities with
  | nil => intro acc k _; rfl
  | cons a t ih =>
    intro acc k hk
    simp only [List.foldl_cons]
    rw [ih _ k (fun e he => hk e (List.mem_cons_of_mem _ he))]
    exact lookupFirst_dictSet_ne _ _ _ _ (fun h => hk a (List.mem_cons_self _ _) h.symm)

theorem calc_scores_lookup (relations : List Relation) :
    ∀ (entities : List Entity) (acc : List (String × ScoreData)),
      (entities.map (fun e => e.entity_id)).Nodup →
      (∀ e ∈ entities, lookupFirst acc e.entity_id = none) →
      ∀ e ∈ entities,
        lookupFirst
          (entities.foldl (fun a e => dictSet a e.entity_id (mkScoreData relations e)) acc)
          e.entity_id = some (mkScoreData relations e) := by
  intro entities
  induction entities with
  | nil => intro acc _ _ e he; simp at he
  | cons a t ih =>
    intro acc hnd hacc e he
    have hnd' : a.entity_id ∉ t.map (fun e => e.entity_id) ∧
        (t.map (fun e => e.entity_id)).Nodup := by
      rw [List.map_cons, List.nodup_cons] at hnd; exact hnd
    simp only [List.foldl_cons]
    rcases List.mem_cons.mp he with rfl | het
    · rw [foldl_dictSet_lookup_of_ne relations t _ e.entity_id ?_]
      · exact lookupFirst_dictSet_self _ _ _
      · intro x hx hxe
        exact hnd'.1 (by simpa [hxe] using List.mem_map_of_mem (fun e => e.entity_id) hx)
    · refine ih _ hnd'.2 ?_ e het
      intro x hx
      rw [lookupFirst_dictSet_ne]
      · exact hacc x (List.mem_cons_of_mem _ hx)
      · intro h
        exact hnd'.1 (by simpa [h] using List.mem_map_of_mem (fun e => e.entity_id) hx)

theorem mkScoreData_score (relations : List Relation) (e : Entity) :
    (mkScoreData relations e).score = specScore relations e := rfl

theorem mkScoreData_passes (relations : List Relation) (e : Entity) :
    (mkScoreData relations e).passes_threshold = true ↔ 20 ≤ specScore relations e := by
  show decide (IMPORTANCE_THRESHOLD ≤ _) = true ↔ _
  rw [decide_eq_true_eq]
  exact Iff.rfl

/-- Claim C4: in the filtering pipeline (with unique entity ids, a catalog
invariant), every kept entity carries the importance score
`papers*1.0 + relations*2.0 + relation_type_diversity*1.5` computed against
the full unfiltered relation catalog, an entity is kept exactly when that
score is at least the default threshold 20, and every surviving relation has
both endpoints scoring at least 20 — so a relation touching a sub-threshold
entity is dropped regardless of its other endpoint. -/
theorem run_filtering_score_threshold (entities : List Entity) (relations : List Relation)
    (hnd : (entities.map (fun e => e.entity_id)).Nodup) :
    (∀ fe ∈ (run_filtering_core entities relations).1,
      fe.entity ∈ entities ∧ fe.importance_score = specScore relations fe.entity ∧
        20 ≤ specScore relations fe.entity) ∧
    (∀ e ∈ entities, 20 ≤ specScore relations e →
      ∃ fe ∈ (run_filtering_core entities relations).1, fe.entity = e) ∧
    (∀ rel ∈ (run_filtering_core entities relations).2,
      (∃ e ∈ entities, e.entity_id = rel.source ∧ 20 ≤ specScore relations e) ∧
      (∃ e ∈ entities, e.entity_id = rel.target ∧ 20 ≤ specScore relations e)) := by
  have hlook := calc_scores_lookup relations entities [] hnd (fun _ _ => rfl)
  have part1 : ∀ fe ∈ (run_filtering_core entities relations).1,
      fe.entity ∈ entities ∧ fe.importance_score = specScore relations fe.entity ∧
        20 ≤ specScore relations fe.entity := by
    intro fe hfe
    unfold run_filtering_core filter_entities at hfe
    simp only [List.mem_filterMap] at hfe
    obtain ⟨e, he, hfe⟩ := hfe
    rw [show calculate_entity_scores entities relations =
        entities.foldl (fun a e => dictSet a e.entity_id (mkScoreData relations e)) []
      from rfl] at hfe
    rw [hlook e he] at hfe
    simp only at hfe
    split at hfe
    · rename_i hpass
      obtain rfl := Option.some_injective _ hfe
      exact ⟨he, (mkScoreData_score relations e).symm ▸ rfl,
        (mkScoreData_passes relations e).mp hpass⟩
    · exact absurd hfe (by simp)
  refine ⟨part1, ?_, ?_⟩
  · intro e he hscore
    refine ⟨⟨e, specScore relations e, relCount relations e.entity_id⟩, ?_, rfl⟩
    unfold run_filtering_core filter_entities
    simp only [List.mem_filterMap]
    refine ⟨e, he, ?_⟩
    rw [show calculate_entity_scores entities relations =
        entities.foldl (fun a e => dictSet a e.entity_id (mkScoreData relations e)) []
      from rfl]
    rw [hlook e he]
    simp only
    rw [if_pos ((mkScoreData_passes relations e).mpr hscore)]
    rfl
  · intro rel hrel
    have hend := run_filtering_endpoints entities relations rel hrel
    constructor
    · obtain ⟨fe, hfe, hid⟩ := List.mem_map.mp hend.1
      obtain ⟨hin, _, hsc⟩ := part1 fe hfe
      exact ⟨fe.entity, hin, hid, hsc⟩
    · obtain ⟨fe, hfe, hid⟩ := List.mem_map.mp hend.2
      obtain ⟨hin, _, hsc⟩ := part1 fe hfe
      exact ⟨fe.entity, hin, hid, hsc⟩

/-- Witness for C4 at the spec scenario: entity `A` with 2 papers, 3
relation endpoints and 2 distinct relation types scores 11.0 and is
filtered out, entity `B` scoring exactly 20 is kept, and all relations
(each touching `A`) are dropped. -/
theorem run_filtering_score_threshold_witness :
    specScore [⟨"A", "affects", "B"⟩, ⟨"A", "increases", "B"⟩, ⟨"B", "affects", "A"⟩]
        ⟨"A", "a", "condition", ["p1", "p2"]⟩ = 11 ∧
    (¬ ∃ fe ∈ (run_filtering_core
        [⟨"A", "a", "condition", ["p1", "p2"]⟩,
         ⟨"B", "b", "condition",
          ["q1", "q2", "q3", "q4", "q5", "q6", "q7", "q8", "q9", "q10", "q11"]⟩]
        [⟨"A", "affects", "B"⟩, ⟨"A", "increases", "B"⟩, ⟨"B", "affects", "A"⟩]).1,
      fe.entity = ⟨"A", "a", "condition", ["p1", "p2"]⟩) ∧
    (∃ fe ∈ (run_filtering_core
        [⟨"A", "a", "condition", ["p1", "p2"]⟩,
         ⟨"B", "b", "condition",
          ["q1", "q2", "q3", "q4", "q5", "q6", "q7", "q8", "q9", "q10", "q11"]⟩]
        [⟨"A", "affects", "B"⟩, ⟨"A", "increases", "B"⟩, ⟨"B", "affects", "A"⟩]).1,
      fe.entity = ⟨"B", "b", "condition",
        ["q1", "q2", "q3", "q4", "q5", "q6", "q7", "q8", "q9", "q10", "q11"]⟩) ∧
    (run_filtering_core
        [⟨"A", "a", "condition", ["p1", "p2"]⟩,
         ⟨"B", "b", "condition",
          ["q1", "q2", "q3", "q4", "q5", "q6", "q7", "q8", "q9", "q10", "q11"]⟩]
        [⟨"A", "affects", "B"⟩, ⟨"A", "increases", "B"⟩, ⟨"B", "affects", "A"⟩]).2 = [] := by
  have hcA : relCount [⟨"A", "affects", "B"⟩, ⟨"A", "increases", "B"⟩, ⟨"B", "affects", "A"⟩]
      "A" = 3 := by decide
  have hdA : relTypeDiversity
      [⟨"A", "affects", "B"⟩, ⟨"A", "increases", "B"⟩, ⟨"B", "affects", "A"⟩] "A" = 2 := by
    decide
  have hcB : relCount [⟨"A", "affects", "B"⟩, ⟨"A", "increases", "B"⟩, ⟨"B", "affects", "A"⟩]
      "B" = 3 := by decide
  have hdB : relTypeDiversity
      [⟨"A", "affects", "B"⟩, ⟨"A", "increases", "B"⟩, ⟨"B", "affects", "A"⟩] "B" = 2 := by
    decide
  have hA : specScore [⟨"A", "affects", "B"⟩, ⟨"A", "increases", "B"⟩, ⟨"B", "affects", "A"⟩]
      ⟨"A", "a", "condition", ["p1", "p2"]⟩ = 11 := by
    simp only [specScore, hcA, hdA]
    norm_num
  have hB : specScore [⟨"A", "affects", "B"⟩, ⟨"A", "increases", "B"⟩, ⟨"B", "affects", "A"⟩]
      ⟨"B", "b", "condition",
        ["q1", "q2", "q3", "q4", "q5", "q6", "q7", "q8", "q9", "q10", "q11"]⟩ = 20 := by
    simp only [specScore, hcB, hdB]
    norm_num
  have hthm := run_filtering_score_threshold
    [⟨"A", "a", "condition", ["p1", "p2"]⟩,
     ⟨"B", "b", "condition",
      ["q1", "q2", "q3", "q4", "q5", "q6", "q7", "q8", "q9", "q10", "q11"]⟩]
    [⟨"A", "affects", "B"⟩, ⟨"A", "increases", "B"⟩, ⟨"B", "affects", "A"⟩] (by decide)
  refine ⟨hA, ?_, ?_, ?_⟩
  · rintro ⟨fe, hmem, heq⟩
    have h20 := (hthm.1 fe hmem).2.2
    rw [heq, hA] at h20
    norm_num at h20
  · exact hthm.2.1 _ (by simp) (le_of_eq hB.symm)
  · rw [List.eq_nil_iff_forall_not_mem]
    intro rel hrel
    have hends := hthm.2.2 rel hrel
    have hrels : rel ∈ [(⟨"A", "affects", "B"⟩ : Relation), ⟨"A", "increases", "B"⟩,
        ⟨"B", "affects", "A"⟩] := by
      have hrel' : rel ∈ List.filter
          (fun r => decide (r.source ∈ (run_filtering_core
              [⟨"A", "a", "condition", ["p1", "p2"]⟩,
               ⟨"B", "b", "condition",
                ["q1", "q2", "q3", "q4", "q5", "q6", "q7", "q8", "q9", "q10", "q11"]⟩]
              [⟨"A", "affects", "B"⟩, ⟨"A", "increases", "B"⟩, ⟨"B", "affects", "A"⟩]).1.map
                (fun fe => fe.entity.entity_id) ∧
            r.target ∈ (run_filtering_core
              [⟨"A", "a", "condition", ["p1", "p2"]⟩,
               ⟨"B", "b", "condition",
                ["q1", "q2", "q3", "q4", "q5", "q6", "q7", "q8", "q9", "q10", "q11"]⟩]
              [⟨"A", "affects", "B"⟩, ⟨"A", "increases", "B"⟩, ⟨"B", "affects", "A"⟩]).1.map
                (fun fe => fe.entity.entity_id)))
          [⟨"A", "affects", "B"⟩, ⟨"A", "increases", "B"⟩, ⟨"B", "affects", "A"⟩] := hrel
      exact List.mem_of_mem_filter hrel'
    have habs : ∀ e : Entity,
        e ∈ [(⟨"A", "a", "condition", ["p1", "p2"]⟩ : Entity),
          ⟨"B", "b", "condition",
            ["q1", "q2", "q3", "q4", "q5", "q6", "q7", "q8", "q9", "q10", "q11"]⟩] →
        e.entity_id = "A" →
        ¬ 20 ≤ specScore
            [⟨"A", "affects", "B"⟩, ⟨"A", "increases", "B"⟩, ⟨"B", "affects", "A"⟩] e := by
      intro e he hid
      rcases List.mem_cons.mp he with rfl | he'
      · rw [hA]; norm_num
      · rcases List.mem_cons.mp he' with rfl | he''
        · simp at hid
        · simp at he''
    rcases List.mem_cons.mp hrels with rfl | h'
    · obtain ⟨e, he, hid, h20⟩ := hends.1
      exact habs e he hid h20
    · rcases List.mem_cons.mp h' with rfl | h''
      · obtain ⟨e, he, hid, h20⟩ := hends.1
        exact habs e he hid h20
      · rcases List.mem_cons.mp h'' with rfl | h'''
        · obtain ⟨e, he, hid, h20⟩ := hends.2
          exact habs e he hid h20
        · simp at h'''

/-! ## Claim C2: relation aggregation — distinct-paper evidence counts,
mean confidence, three first-seen sentences -/

theorem lookupFirst_addRel (g : List ((String × String × String) × GroupData))
    (r : RawRelation) (k : String × String × String) :
    lookupFirst (addRel g r) k =
      if k = relKeyOf r then some (extendGroup ((lookupFirst g k).getD emptyGroup) r)
      else lookupFirst g k := by
  induction g with
  | nil => by_cases h : k = relKeyOf r <;> simp [addRel, lookupFirst, h]
  | cons kd t ih =>
    obtain ⟨k', d⟩ := kd
    by_cases h1 : relKeyOf r = k'
    · subst h1
      by_cases h2 : k = relKeyOf r <;> simp [addRel, lookupFirst, h2]
    · by_cases h2 : k = k'
      · subst h2
        have h3 : ¬ k = relKeyOf r := fun h => h1 h.symm
        simp [addRel, lookupFirst, h1, h3]
      · simp [addRel, lookupFirst, h1, h2, ih]

theorem foldl_addRel_lookup (raw : List RawRelation) :
    ∀ (g : List ((String × String × String) × GroupData)) (k : String × String × String),
      lookupFirst (raw.foldl addRel g) k =
        (raw.filter (fun r => relKeyOf r = k)).foldl
          (fun o r => some (extendGroup (o.getD emptyGroup) r)) (lookupFirst g k) := by
  induction raw with
  | nil => intro g k; rfl
  | cons r t ih =>
    intro g k
    simp only [List.foldl_cons]
    rw [ih]
    by_cases h : relKeyOf r = k
    · rw [List.filter_cons_of_pos (by simpa using h)]
      simp only [List.foldl_cons]
      rw [lookupFirst_addRel, if_pos h.symm]
    · rw [List.filter_cons_of_neg (by simpa using h)]
      rw [lookupFirst_addRel, if_neg (fun hk => h hk.symm)]

theorem foldl_step_some (l : List RawRelation) (d : GroupData) :
    l.foldl (fun o r => some (extendGroup (o.getD emptyGroup) r)) (some d) =
      some (l.foldl extendGroup d) := by
  induction l generalizing d with
  | nil => rfl
  | cons r t ih => simp only [List.foldl_cons, Option.getD_some]; exact ih _

theorem foldl_extendGroup_sentences (l : List RawRelation) (d : GroupData) :
    (l.foldl extendGroup d).sentences = d.sentences ++ l.map (fun r => r.sentence) := by
  induction l generalizing d with
  | nil => simp
  | cons r t ih => simp [List.foldl_cons, ih, extendGroup]

theorem foldl_extendGroup_confs (l : List RawRelation) (d : GroupData) :
    (l.foldl extendGroup d).confidence_scores =
      d.confidence_scores ++ l.map (fun r => r.confidence) := by
  induction l generalizing d with
  | nil => simp
  | cons r t ih => simp [List.foldl_cons, ih, extendGroup]

theorem foldl_extendGroup_papers_mem (l : List RawRelation) (d : GroupData) (p : String) :
    p ∈ (l.foldl extendGroup d).papers ↔
      p ∈ d.papers ∨ p ∈ l.map (fun r => r.paper_id) := by
  induction l generalizing d with
  | nil => simp
  | cons r t ih => simp [List.foldl_cons, ih, extendGroup, mem_insertAbsent]; tauto

theorem foldl_extendGroup_papers_nodup (l : List RawRelation) (d : GroupData)
    (h : d.papers.Nodup) : (l.foldl extendGroup d).papers.Nodup := by
  induction l generalizing d with
  | nil => exact h
  | cons r t ih => exact ih _ (insertAbsent_nodup h _)

theorem addRel_keys (g : List ((String × String × String) × GroupData)) (r : RawRelation) :
    (addRel g r).map Prod.fst =
      if relKeyOf r ∈ g.map Prod.fst then g.map Prod.fst
      else g.map Prod.fst ++ [relKeyOf r] := by
  induction g with
  | nil => simp [addRel]
  | cons kd t ih =>
    obtain ⟨k', d⟩ := kd
    by_cases h : relKeyOf r = k'
    · simp [addRel, h]
    · simp only [addRel, if_neg h, List.map_cons, ih]
      by_cases h2 : relKeyOf r ∈ t.map Prod.fst <;>
        simp [h2, List.mem_cons, h]

theorem buildGroups_keys_nodup (raw : List RawRelation) :
    ((buildGroups raw).map Prod.fst).Nodup := by
  suffices h : ∀ g : List ((String × String × String) × GroupData),
      (g.map Prod.fst).Nodup → ((raw.foldl addRel g).map Prod.fst).Nodup from
    h [] List.nodup_nil
  induction raw with
  | nil => intro g hg; exact hg
  | cons r t ih =>
    intro g hg
    simp only [List.foldl_cons]
    refine ih _ ?_
    rw [addRel_keys]
    by_cases hmem : relKeyOf r ∈ g.map Prod.fst
    · rw [if_pos hmem]; exact hg
    · rw [if_neg hmem, List.nodup_append]
      exact ⟨hg, List.nodup_singleton _,
        fun a ha hb => hmem (List.mem_singleton.mp hb ▸ ha)⟩

theorem lookupFirst_of_mem_nodup [DecidableEq κ] {l : List (κ × β)}
    (hnd : (l.map Prod.fst).Nodup) {k : κ} {d : β} (h : (k, d) ∈ l) :
    lookupFirst l k = some d := by
  induction l with
  | nil => simp at h
  | cons kd t ih =>
    obtain ⟨k', d'⟩ := kd
    simp only [List.map_cons, List.nodup_cons] at hnd
    rcases List.mem_cons.mp h with heq | ht
    · obtain ⟨rfl, rfl⟩ := Prod.mk.injEq .. ▸ heq
      simp [lookupFirst]
    · have hk : k ≠ k' := by
        intro hkk
        subst hkk
        exact hnd.1 (by simpa using List.mem_map_of_mem Prod.fst ht)
      simp only [lookupFirst, if_neg hk]
      exact ih hnd.2 ht

/-- Claim C2: every aggregated relation produced by `deduplicate_relations`
has `evidence_count` equal to the number of distinct paper ids among its
contributing candidates (never the raw candidate count), `confidence` equal
to the arithmetic mean of the contributing candidates' confidences rounded
to 3 decimals, and `sample_sentences` equal to the first up-to-3
contributing sentences in first-seen order. -/
theorem deduplicate_relations_aggregation (raw : List RawRelation) :
    ∀ rel ∈ deduplicate_relations raw,
      rel.evidence_count =
        ((raw.filter (fun r => relKeyOf r = (rel.source, rel.relation, rel.target))).map
          (fun r => r.paper_id)).toFinset.card ∧
      rel.confidence = round3
        (((raw.filter (fun r => relKeyOf r = (rel.source, rel.relation, rel.target))).map
            (fun r => r.confidence)).sum /
          ((raw.filter (fun r => relKeyOf r = (rel.source, rel.relation, rel.target))).map
            (fun r => r.confidence)).length) ∧
      rel.sample_sentences =
        ((raw.filter (fun r => relKeyOf r = (rel.source, rel.relation, rel.target))).map
          (fun r => r.sentence)).take 3 := by
  intro rel hrel
  have hcat : rel ∈ (buildGroups raw).enum.map (fun p => mkAggRelation p.1 p.2) :=
    (List.perm_insertionSort _ _).mem_iff.mp hrel
  obtain ⟨p, hp, rfl⟩ := List.mem_map.mp hcat
  obtain ⟨i, k, d⟩ := p
  have hkd : (k, d) ∈ buildGroups raw := by
    have h' := List.mem_enum_iff_getElem?.mp hp
    exact List.getElem?_mem h'
  have hkey : ((mkAggRelation i (k, d)).source, (mkAggRelation i (k, d)).relation,
      (mkAggRelation i (k, d)).target) = k := rfl
  rw [hkey]
  have hlook : lookupFirst (buildGroups raw) k = some d :=
    lookupFirst_of_mem_nodup (buildGroups_keys_nodup raw) hkd
  rw [show buildGroups raw = raw.foldl addRel [] from rfl, foldl_addRel_lookup] at hlook
  rcases hfil : raw.filter (fun r => relKeyOf r = k) with _ | ⟨r0, t⟩
  · rw [hfil] at hlook
    simp [lookupFirst] at hlook
  · rw [hfil] at hlook
    simp only [List.foldl_cons, lookupFirst, Option.getD_none] at hlook
    rw [foldl_step_some] at hlook
    have hd : d = (r0 :: t).foldl extendGroup emptyGroup := by
      simpa using hlook.symm
    subst hd
    refine ⟨?_, ?_, ?_⟩
    · show ((r0 :: t).foldl extendGroup emptyGroup).papers.length = _
      have hnd := foldl_extendGroup_papers_nodup (r0 :: t) emptyGroup (by simp [emptyGroup])
      rw [← List.toFinset_card_of_nodup hnd]
      congr 1
      ext x
      simp only [List.mem_toFinset, foldl_extendGroup_papers_mem, emptyGroup]
      simp
    · show round3 _ = _
      rw [foldl_extendGroup_confs]
      simp [emptyGroup]
    · show ((r0 :: t).foldl extendGroup emptyGroup).sentences.take 3 = _
      rw [foldl_extendGroup_sentences]
      simp [emptyGroup]

/-- Witness for C2 at a concrete candidate stream: three candidates for the
triple `(A, affects, B)` coming from papers `P1, P1, P2` aggregate with
`evidence_count` 2 — the distinct-paper count, not the raw count 3. -/
theorem deduplicate_relations_aggregation_witness :
    (mkAggRelation 0 (("A", "affects", "B"),
        ⟨["P1", "P2"], ["s1", "s2", "s3"], [7/10, 6/10, 7/10]⟩)).evidence_count =
      (([⟨"A", "affects", "B", "s1", 7/10, "P1"⟩,
         ⟨"A", "affects", "B", "s2", 6/10, "P1"⟩,
         ⟨"A", "affects", "B", "s3", 7/10, "P2"⟩].filter
            (fun r : RawRelation => relKeyOf r =
              ((mkAggRelation 0 (("A", "affects", "B"),
                  ⟨["P1", "P2"], ["s1", "s2", "s3"], [7/10, 6/10, 7/10]⟩)).source,
               (mkAggRelation 0 (("A", "affects", "B"),
                  ⟨["P1", "P2"], ["s1", "s2", "s3"], [7/10, 6/10, 7/10]⟩)).relation,
               (mkAggRelation 0 (("A", "affects", "B"),
                  ⟨["P1", "P2"], ["s1", "s2", "s3"], [7/10, 6/10, 7/10]⟩)).target))).map
          (fun r => r.paper_id)).toFinset.card ∧
    (mkAggRelation 0 (("A", "affects", "B"),
        ⟨["P1", "P2"], ["s1", "s2", "s3"], [7/10, 6/10, 7/10]⟩)).evidence_count = 2 := by
  have hmem : mkAggRelation 0 (("A", "affects", "B"),
      ⟨["P1", "P2"], ["s1", "s2", "s3"], [7/10, 6/10, 7/10]⟩) ∈
      deduplicate_relations
        [⟨"A", "affects", "B", "s1", 7/10, "P1"⟩,
         ⟨"A", "affects", "B", "s2", 6/10, "P1"⟩,
         ⟨"A", "affects", "B", "s3", 7/10, "P2"⟩] := by
    rw [show deduplicate_relations
        [⟨"A", "affects", "B", "s1", 7/10, "P1"⟩,
         ⟨"A", "affects", "B", "s2", 6/10, "P1"⟩,
         ⟨"A", "affects", "B", "s3", 7/10, "P2"⟩] =
        [mkAggRelation 0 (("A", "affects", "B"),
          ⟨["P1", "P2"], ["s1", "s2", "s3"], [7/10, 6/10, 7/10]⟩)] from rfl]
    exact List.mem_singleton.mpr rfl
  exact ⟨(deduplicate_relations_aggregation _ _ hmem).1, rfl⟩

/-! ## Claim C7: entity deduplication and the synonym set -/

theorem mergeInto_catalog_mono (ratio : String → String → ℕ) (t n : String)
    (g : List RawMention) :
    ∀ (cat cat' : List CatEntity) (eid : String),
      mergeInto ratio t n g cat = some (cat', eid) →
      ∀ e ∈ cat, ∃ e' ∈ cat', e'.name = e.name ∧ e'.type = e.type ∧
        ∀ s ∈ e.synonyms, s ∈ e'.synonyms := by
  intro cat
  induction cat with
  | nil => intro cat' eid h; simp [mergeInto] at h
  | cons e0 rest ih =>
    intro cat' eid h e he
    unfold mergeInto at h
    split at h
    · obtain ⟨rfl, rfl⟩ : ({ e0 with
          synonyms := insertAbsent e0.synonyms n
          papers := g.foldl (fun ps ent => insertAbsent ps ent.paper_id) e0.papers }
            :: rest = cat') ∧ (e0.entity_id = eid) := by
        constructor <;> [exact congrArg Prod.fst (Option.some_injective _ h);
          exact congrArg Prod.snd (Option.some_injective _ h)]
      rcases List.mem_cons.mp he with rfl | he'
      · exact ⟨_, List.mem_cons_self _ _, rfl, rfl,
          fun s hs => mem_insertAbsent.mpr (Or.inl hs)⟩
      · exact ⟨e, List.mem_cons_of_mem _ he', rfl, rfl, fun s hs => hs⟩
    · revert h
      rcases hrec : mergeInto ratio t n g rest with _ | ⟨rest', eid'⟩
      · intro h; simp at h
      · intro h
        obtain ⟨rfl, rfl⟩ : (e0 :: rest' = cat') ∧ (eid' = eid) := by
          constructor <;> [exact congrArg Prod.fst (Option.some_injective _ h);
            exact congrArg Prod.snd (Option.some_injective _ h)]
        rcases List.mem_cons.mp he with rfl | he'
        · exact ⟨e, List.mem_cons_self _ _, rfl, rfl, fun s hs => hs⟩
        · obtain ⟨e', he', hprop⟩ := ih rest' eid' hrec e he'
          exact ⟨e', List.mem_cons_of_mem _ he', hprop⟩

theorem mergeInto_target (ratio : String → String → ℕ) (t n : String)
    (g : List RawMention) :
    ∀ (cat cat' : List CatEntity) (eid : String),
      mergeInto ratio t n g cat = some (cat', eid) →
      ∃ e' ∈ cat', e'.type = t ∧ n ∈ e'.synonyms := by
  intro cat
  induction cat with
  | nil => intro cat' eid h; simp [mergeInto] at h
  | cons e0 rest ih =>
    intro cat' eid h
    unfold mergeInto at h
    split at h
    · rename_i hcond
      have hcat : ({ e0 with
          synonyms := insertAbsent e0.synonyms n
          papers := g.foldl (fun ps ent => insertAbsent ps ent.paper_id) e0.papers }
            :: rest = cat') := congrArg Prod.fst (Option.some_injective _ h)
      subst hcat
      exact ⟨_, List.mem_cons_self _ _, hcond.1, mem_insertAbsent.mpr (Or.inr rfl)⟩
    · revert h
      rcases hrec : mergeInto ratio t n g rest with _ | ⟨rest', eid'⟩
      · intro h; simp at h
      · intro h
        have hcat : (e0 :: rest' = cat') := congrArg Prod.fst (Option.some_injective _ h)
        subst hcat
        obtain ⟨e', he', hprop⟩ := ih rest' eid' hrec
        exact ⟨e', List.mem_cons_of_mem _ he', hprop⟩

theorem processNameGroup_skip (ratio : String → String → ℕ) (t : String)
    (st : DedupState) (ng : String × List RawMention) (h : ng.1 ∈ st.processed) :
    processNameGroup ratio t st ng = st := by
  simp only [processNameGroup]
  rw [if_pos h]

theorem processNameGroup_merge (ratio : String → String → ℕ) (t : String)
    (st : DedupState) (ng : String × List RawMention) (cat' : List CatEntity)
    (eid : String) (h1 : ng.1 ∉ st.processed)
    (h2 : mergeInto ratio t ng.1 ng.2 st.catalog = some (cat', eid)) :
    processNameGroup ratio t st ng =
      { st with
        catalog := cat'
        pem := ng.2.foldl (fun m ent => pemAdd m ent.paper_id eid) st.pem } := by
  simp only [processNameGroup]
  rw [if_neg h1, h2]

theorem processNameGroup_create (ratio : String → String → ℕ) (t : String)
    (st : DedupState) (ng : String × List RawMention) (h1 : ng.1 ∉ st.processed)
    (h2 : mergeInto ratio t ng.1 ng.2 st.catalog = none) :
    processNameGroup ratio t st ng =
      { catalog := st.catalog ++
          [⟨"E" ++ pad5 st.counter, ng.1, t,
            firstDedup (ng.2.map (fun ent => ent.surface_form)),
            firstDedup (ng.2.map (fun ent => ent.paper_id))⟩]
        counter := st.counter + 1
        pem := (firstDedup (ng.2.map (fun ent => ent.paper_id))).foldl
          (fun m pid => pemAdd m pid ("E" ++ pad5 st.counter)) st.pem
        processed := st.processed ++ [ng.1] } := by
  simp only [processNameGroup]
  rw [if_neg h1, h2]

theorem processNameGroup_mono (ratio : String → String → ℕ) (t : String)
    (st : DedupState) (ng : String × List RawMention) :
    ∀ e ∈ st.catalog, ∃ e' ∈ (processNameGroup ratio t st ng).catalog,
      e'.name = e.name ∧ e'.type = e.type ∧ ∀ s ∈ e.synonyms, s ∈ e'.synonyms := by
  intro e he
  by_cases h1 : ng.1 ∈ st.processed
  · rw [processNameGroup_skip ratio t st ng h1]
    exact ⟨e, he, rfl, rfl, fun s hs => hs⟩
  · rcases hrec : mergeInto ratio t ng.1 ng.2 st.catalog with _ | ⟨cat', eid⟩
    · rw [processNameGroup_create ratio t st ng h1 hrec]
      exact ⟨e, List.mem_append_left _ he, rfl, rfl, fun s hs => hs⟩
    · rw [processNameGroup_merge ratio t st ng cat' eid h1 hrec]
      exact mergeInto_catalog_mono ratio t ng.1 ng.2 st.catalog cat' eid hrec e he

theorem processNameGroup_processed (ratio : String → String → ℕ) (t : String)
    (st : DedupState) (ng : String × List RawMention) :
    ∀ s ∈ (processNameGroup ratio t st ng).processed,
      s ∈ st.processed ∨ s = ng.1 := by
  intro s hs
  by_cases h1 : ng.1 ∈ st.processed
  · rw [processNameGroup_skip ratio t st ng h1] at hs
    exact Or.inl hs
  · rcases hrec : mergeInto ratio t ng.1 ng.2 st.catalog with _ | ⟨cat', eid⟩
    · rw [processNameGroup_create ratio t st ng h1 hrec] at hs
      simp only [List.mem_append, List.mem_singleton] at hs
      exact hs
    · rw [processNameGroup_merge ratio t st ng cat' eid h1 hrec] at hs
      exact Or.inl hs

theorem foldl_processNameGroup_mono (ratio : String → String → ℕ) (t : String) :
    ∀ (ngs : List (String × List RawMention)) (st : DedupState),
      ∀ e ∈ st.catalog,
        ∃ e' ∈ ((ngs.foldl (processNameGroup ratio t) st).catalog),
          e'.name = e.name ∧ e'.type = e.type ∧ ∀ s ∈ e.synonyms, s ∈ e'.synonyms := by
  intro ngs
  induction ngs with
  | nil => intro st e he; exact ⟨e, he, rfl, rfl, fun s hs => hs⟩
  | cons ng0 rest ih =>
    intro st e he
    obtain ⟨e1, he1, hn1, ht1, hs1⟩ := processNameGroup_mono ratio t st ng0 e he
    obtain ⟨e2, he2, hn2, ht2, hs2⟩ := ih (processNameGroup ratio t st ng0) e1 he1
    exact ⟨e2, he2, hn2.trans hn1, ht2.trans ht1, fun s hs => hs2 s (hs1 s hs)⟩

theorem processNameGroup_covers (ratio : String → String → ℕ) (t : String)
    (st : DedupState) (ng : String × List RawMention) (hskip : ng.1 ∉ st.processed) :
    ∀ m ∈ ng.2, ∃ e ∈ (processNameGroup ratio t st ng).catalog,
      e.type = t ∧ ((e.name = ng.1 ∧ m.surface_form ∈ e.synonyms) ∨ ng.1 ∈ e.synonyms) := by
  intro m hm
  rcases hrec : mergeInto ratio t ng.1 ng.2 st.catalog with _ | ⟨cat', eid⟩
  · rw [processNameGroup_create ratio t st ng hskip hrec]
    refine ⟨⟨"E" ++ pad5 st.counter, ng.1, t,
      firstDedup (ng.2.map (fun ent => ent.surface_form)),
      firstDedup (ng.2.map (fun ent => ent.paper_id))⟩,
      List.mem_append_right _ (List.mem_singleton.mpr rfl), rfl, Or.inl ⟨rfl, ?_⟩⟩
    exact mem_firstDedup.mpr (List.mem_map_of_mem _ hm)
  · rw [processNameGroup_merge ratio t st ng cat' eid hskip hrec]
    obtain ⟨e', he', htype, hsyn⟩ :=
      mergeInto_target ratio t ng.1 ng.2 st.catalog cat' eid hrec
    exact ⟨e', he', htype, Or.inr hsyn⟩

theorem foldl_processNameGroup_covers (ratio : String → String → ℕ) (t : String) :
    ∀ (ngs : List (String × List RawMention)) (st : DedupState),
      (ngs.map Prod.fst).Nodup →
      (∀ ng ∈ ngs, ng.1 ∉ st.processed) →
      ∀ ng ∈ ngs, ∀ m ∈ ng.2,
        ∃ e ∈ ((ngs.foldl (processNameGroup ratio t) st).catalog),
          e.type = t ∧
          ((e.name = ng.1 ∧ m.surface_form ∈ e.synonyms) ∨ ng.1 ∈ e.synonyms) := by
  intro ngs
  induction ngs with
  | nil => intro st _ _ ng hng; simp at hng
  | cons ng0 rest ih =>
    intro st hnd hinv ng hng m hm
    have hnd' : ng0.1 ∉ rest.map Prod.fst ∧ (rest.map Prod.fst).Nodup := by
      rw [List.map_cons, List.nodup_cons] at hnd; exact hnd
    simp only [List.foldl_cons]
    rcases List.mem_cons.mp hng with rfl | hng'
    · obtain ⟨e, he, htype, hdisj⟩ :=
        processNameGroup_covers ratio t st ng (hinv ng (List.mem_cons_self _ _)) m hm
      obtain ⟨e', he', hn', ht', hs'⟩ :=
        foldl_processNameGroup_mono ratio t rest (processNameGroup ratio t st ng) e he
      refine ⟨e', he', ht'.trans htype, ?_⟩
      rcases hdisj with ⟨hname, hsurf⟩ | hsyn
      · exact Or.inl ⟨hn'.trans hname, hs' _ hsurf⟩
      · exact Or.inr (hs' _ hsyn)
    · refine ih (processNameGroup ratio t st ng0) hnd'.2 ?_ ng hng' m hm
      intro ng' hng'' hproc
      rcases processNameGroup_processed ratio t st ng0 ng'.1 hproc with h | h
      · exact hinv ng' (List.mem_cons_of_mem _ hng'') h
      · exact hnd'.1 (h ▸ List.mem_map_of_mem Prod.fst hng'')

theorem foldl_processType_mono (synTable : List (String × String))
    (ratio : String → String → ℕ) :
    ∀ (tgs : List (String × List RawMention)) (st : DedupState),
      ∀ e ∈ st.catalog,
        ∃ e' ∈ ((tgs.foldl (processType synTable ratio) st).catalog),
          e'.name = e.name ∧ e'.type = e.type ∧ ∀ s ∈ e.synonyms, s ∈ e'.synonyms := by
  intro tgs
  induction tgs with
  | nil => intro st e he; exact ⟨e, he, rfl, rfl, fun s hs => hs⟩
  | cons tg0 rest ih =>
    intro st e he
    have h1 : ∃ e' ∈ (processType synTable ratio st tg0).catalog,
        e'.name = e.name ∧ e'.type = e.type ∧ ∀ s ∈ e.synonyms, s ∈ e'.synonyms :=
      foldl_processNameGroup_mono ratio tg0.1 (nameGroupsOf synTable tg0.2)
        { st with processed := [] } e he
    obtain ⟨e1, he1, hn1, ht1, hs1⟩ := h1
    obtain ⟨e2, he2, hn2, ht2, hs2⟩ := ih (processType synTable ratio st tg0) e1 he1
    exact ⟨e2, he2, hn2.trans hn1, ht2.trans ht1, fun s hs => hs2 s (hs1 s hs)⟩

theorem foldl_processType_covers (synTable : List (String × String))
    (ratio : String → String → ℕ) :
    ∀ (tgs : List (String × List RawMention)) (st : DedupState),
      ∀ tg ∈ tgs, ∀ m ∈ tg.2,
        ∃ e ∈ ((tgs.foldl (processType synTable ratio) st).catalog),
          e.type = tg.1 ∧
          ((e.name = normalize_entity_name synTable m.surface_form ∧
              m.surface_form ∈ e.synonyms) ∨
            normalize_entity_name synTable m.surface_form ∈ e.synonyms) := by
  intro tgs
  induction tgs with
  | nil => intro st tg htg; simp at htg
  | cons tg0 rest ih =>
    intro st tg htg m hm
    simp only [List.foldl_cons]
    rcases List.mem_cons.mp htg with rfl | htg'
    · have hngmem : (normalize_entity_name synTable m.surface_form,
          tg.2.filter (fun e => normalize_entity_name synTable e.surface_form =
            normalize_entity_name synTable m.surface_form)) ∈
          nameGroupsOf synTable tg.2 := by
        unfold nameGroupsOf
        exact List.mem_map_of_mem _ (mem_firstDedup.mpr (List.mem_map_of_mem _ hm))
      have hmfil : m ∈ tg.2.filter (fun e => normalize_entity_name synTable e.surface_form =
          normalize_entity_name synTable m.surface_form) := by
        rw [List.mem_filter]
        exact ⟨hm, by simp⟩
      have hkeysnd : ((nameGroupsOf synTable tg.2).map Prod.fst).Nodup := by
        have h := nodup_firstDedup
          (tg.2.map (fun e => normalize_entity_name synTable e.surface_form))
        unfold nameGroupsOf
        rw [List.map_map]
        have hid : (Prod.fst ∘ fun n : String =>
            (n, tg.2.filter (fun e => normalize_entity_name synTable e.surface_form = n)))
            = id := rfl
        rw [hid, List.map_id]
        exact h
      obtain ⟨e, he, htype, hdisj⟩ :=
        foldl_processNameGroup_covers ratio tg.1 (nameGroupsOf synTable tg.2)
          { st with processed := [] } hkeysnd (by intro ng _ h; simp at h)
          _ hngmem m hmfil
      obtain ⟨e', he', hn', ht', hs'⟩ :=
        foldl_processType_mono synTable ratio rest (processType synTable ratio st tg) e he
      refine ⟨e', he', ht'.trans htype, ?_⟩
      rcases hdisj with ⟨hname, hsurf⟩ | hsyn
      · exact Or.inl ⟨hn'.trans hname, hs' _ hsurf⟩
      · exact Or.inr (hs' _ hsyn)
    · exact ih (processType synTable ratio st tg0) tg htg' m hm

/-- Claim C7 (amended): for every mention fed to `deduplicate_entities`,
the catalog holds an entity of the mention's type that received either the
mention's surface form (when the mention's normalized group created the
entity, whose canonical name is that normalized form) or the mention's
normalized form (when the group was merged into an existing entity via the
similarity threshold). The synonym set is *not* a superset of all surface
and normalized forms: creators contribute surfaces only, merges contribute
the normalized name only. -/
theorem deduplicate_entities_synonym_provenance (synTable : List (String × String))
    (ratio : String → String → ℕ) (raw : List RawMention) :
    ∀ m ∈ raw, ∃ e ∈ (deduplicate_entities synTable ratio raw).1,
      e.type = m.type ∧
      ((e.name = normalize_entity_name synTable m.surface_form ∧
          m.surface_form ∈ e.synonyms) ∨
        normalize_entity_name synTable m.surface_form ∈ e.synonyms) := by
  intro m hm
  have htg : (m.type, raw.filter (fun e => e.type = m.type)) ∈ typeGroupsOf raw := by
    unfold typeGroupsOf
    exact List.mem_map_of_mem _ (mem_firstDedup.mpr (List.mem_map_of_mem _ hm))
  have hmem : m ∈ raw.filter (fun e => e.type = m.type) := by
    rw [List.mem_filter]; exact ⟨hm, by simp⟩
  obtain ⟨e, he, htype, hdisj⟩ :=
    foldl_processType_covers synTable ratio (typeGroupsOf raw) ⟨[], 1, [], []⟩
      _ htg m hmem
  exact ⟨e, he, htype, hdisj⟩

/-- Counterexample for C7 as stated: two condition mentions,
`"Bone Loss."` (normalizing to `"bone loss"`, creating entity `E00001`)
and `"Bone Density!"` (normalizing to `"bone density"`, merged into
`E00001` by a similarity score of 90). The synonym set is
`["Bone Loss.", "bone density"]`: it contains neither the creating
group's normalized form `"bone loss"` nor the merged mention's surface
form `"Bone Density!"`. -/
theorem deduplicate_entities_synonyms_counterexample :
    (deduplicate_entities []
        (fun a b => if a = "bone density" ∧ b = "bone loss" then 90 else 0)
        [⟨"P1", "Bone Loss.", "condition"⟩, ⟨"P2", "Bone Density!", "condition"⟩]).1 =
      [⟨"E00001", "bone loss", "condition", ["Bone Loss.", "bone density"],
        ["P1", "P2"]⟩] ∧
    normalize_entity_name [] "Bone Loss." = "bone loss" ∧
    normalize_entity_name [] "Bone Density!" = "bone density" ∧
    "bone loss" ∉ (["Bone Loss.", "bone density"] : List String) ∧
    "Bone Density!" ∉ (["Bone Loss.", "bone density"] : List String) := by
  refine ⟨by decide, by decide, by decide, by decide, by decide⟩

/-- Witness for C7 (amended) at the counterexample input: the merged
mention `"Bone Density!"` is represented through its normalized form
`"bone density"` in the synonym set of a condition entity. -/
theorem deduplicate_entities_synonym_provenance_witness :
    ∃ e ∈ (deduplicate_entities []
        (fun a b => if a = "bone density" ∧ b = "bone loss" then 90 else 0)
        [⟨"P1", "Bone Loss.", "condition"⟩, ⟨"P2", "Bone Density!", "condition"⟩]).1,
      e.type = "condition" ∧
      ((e.name = normalize_entity_name [] "Bone Density!" ∧
          "Bone Density!" ∈ e.synonyms) ∨
        normalize_entity_name [] "Bone Density!" ∈ e.synonyms) :=
  deduplicate_entities_synonym_provenance []
    (fun a b => if a = "bone density" ∧ b = "bone loss" then 90 else 0)
    [⟨"P1", "Bone Loss.", "condition"⟩, ⟨"P2", "Bone Density!", "condition"⟩]
    ⟨"P2", "Bone Density!", "condition"⟩ (by decide)

/-! ## Claim C6: hybrid query combination -/

/-- Claim C6: when the SQL executor returns a papers result, the hybrid
query's combined list equals those papers restricted to the graph-derived
related-paper-id set when that set is non-empty, and equals all SQL papers
unfiltered when the graph set is empty. -/
theorem run_hybrid_query_combined (gbn : String → Option GraphEntity)
    (grp : String → List String) (run_sql : String → SqlResult) (q : String)
    (ps : List SqlPaper) (hsql : run_sql q = SqlResult.papersRes ps) :
    run_hybrid_query true gbn grp run_sql q =
      HybridOut.hybrid
        ⟨(hybridGraphPapers gbn grp q).1, (hybridGraphPapers gbn grp q).2,
          SqlResult.papersRes ps,
          if (hybridGraphPapers gbn grp q).2.isEmpty then ps
          else ps.filter (fun p => p.paper_id ∈ (hybridGraphPapers gbn grp q).2)⟩ := by
  simp only [run_hybrid_query, hsql, Bool.not_true]
  rfl

/-- Witness for C6 at the spec scenario: the query
`"papers related to radiation and in cluster 3"` classifies HYBRID, the
graph resolves `radiation` to paper set `{P1, P2}`, the SQL cluster-3
result is `{P2, P3}`, and the combined result is `{P2}`. -/
theorem run_hybrid_query_combined_witness :
    classify_query "papers related to radiation and in cluster 3" = "HYBRID" ∧
    run_hybrid_query true
        (fun n => if n = "radiation" then some ⟨"E9", "radiation"⟩ else none)
        (fun e => if e = "E9" then ["P1", "P2"] else [])
        (fun _ => SqlResult.papersRes [⟨"P2", "t2", 2020⟩, ⟨"P3", "t3", 2021⟩])
        "papers related to radiation and in cluster 3" =
      HybridOut.hybrid ⟨some ⟨"E9", "radiation"⟩, ["P1", "P2"],
        SqlResult.papersRes [⟨"P2", "t2", 2020⟩, ⟨"P3", "t3", 2021⟩],
        [⟨"P2", "t2", 2020⟩]⟩ := by
  refine ⟨by decide, ?_⟩
  have h := run_hybrid_query_combined
    (fun n => if n = "radiation" then some ⟨"E9", "radiation"⟩ else none)
    (fun e => if e = "E9" then ["P1", "P2"] else [])
    (fun _ => SqlResult.papersRes [⟨"P2", "t2", 2020⟩, ⟨"P3", "t3", 2021⟩])
    "papers related to radiation and in cluster 3"
    [⟨"P2", "t2", 2020⟩, ⟨"P3", "t3", 2021⟩] rfl
  rw [h]
  decide

/-! ## Claim C8: not-found results of the graph query -/

/-- Counterexample for C8's scenario: on the query
`"papers related to unknownentity123"` the engine never reaches the
name-resolution branch — the name contains the substring `"entity"`, so
the entity-listing branch answers — and the result carries no not-found
indicator even though nothing resolves. -/
theorem run_graph_query_scenario_counterexample :
    run_graph_query true (fun _ => none) (fun _ => []) (fun _ => [])
        "papers related to unknownentity123" = GraphResult.entitiesRes [] ∧
    GraphResult.entitiesRes ([] : List GraphEntity) ≠
      GraphResult.errorResult "Entity \x27unknownentity123\x27 not found" := by
  exact ⟨by decide, by decide⟩

/-- Claim C8 (amended): for a query of the form `related to <name>` that
does not contain the substring `entity` (or `entities`) — such queries are
the ones that reach the name-resolution branch — an unresolved name yields
the explicit not-found error result, a resolved entity yields the
entity-with-papers result (an empty-but-valid list when it has no papers),
and the two result shapes are distinct. -/
theorem run_graph_query_not_found_distinct (gbn : String → Option GraphEntity)
    (grp : String → List String) (ge : Option String → List GraphEntity)
    (q : String) (name : String) :
    (strContains (pyLower q) "entity" = false →
      strContains (pyLower q) "entities" = false →
      relatedToName (pyLower q).data = some name →
      gbn name = none →
      run_graph_query true gbn grp ge q =
        GraphResult.errorResult ("Entity \x27" ++ name ++ "\x27 not found")) ∧
    (∀ e, strContains (pyLower q) "entity" = false →
      strContains (pyLower q) "entities" = false →
      relatedToName (pyLower q).data = some name →
      gbn name = some e →
      run_graph_query true gbn grp ge q =
        GraphResult.entityPapers e (grp e.entity_id)) ∧
    (∀ e ps msg, GraphResult.entityPapers e ps ≠ GraphResult.errorResult msg) := by
  refine ⟨?_, ?_, ?_⟩
  · intro h1 h2 h3 h4
    simp only [run_graph_query, h1, h2, Bool.not_true, Bool.or_self, Bool.false_eq_true,
      if_false, h3, h4]
  · intro e h1 h2 h3 h4
    simp only [run_graph_query, h1, h2, Bool.not_true, Bool.or_self, Bool.false_eq_true,
      if_false, h3, h4]
  · intro e ps msg h
    exact GraphResult.noConfusion h

/-- Witness for C8 (amended) at the query
`"papers related to unknownfoo123"`: an unresolving backend yields the
explicit not-found result, a backend resolving the name to an entity with
zero papers yields the distinct empty-but-valid result. -/
theorem run_graph_query_not_found_distinct_witness :
    run_graph_query true (fun _ => none) (fun _ => []) (fun _ => [])
        "papers related to unknownfoo123" =
      GraphResult.errorResult "Entity \x27unknownfoo123\x27 not found" ∧
    run_graph_query true (fun _ => some ⟨"E1", "unknownfoo123"⟩) (fun _ => [])
        (fun _ => []) "papers related to unknownfoo123" =
      GraphResult.entityPapers ⟨"E1", "unknownfoo123"⟩ [] ∧
    GraphResult.entityPapers ⟨"E1", "unknownfoo123"⟩ [] ≠
      GraphResult.errorResult "Entity \x27unknownfoo123\x27 not found" :=
  ⟨(run_graph_query_not_found_distinct (fun _ => none) (fun _ => []) (fun _ => [])
      "papers related to unknownfoo123" "unknownfoo123").1
    (by decide) (by decide) (by decide) rfl,
   (run_graph_query_not_found_distinct (fun _ => some ⟨"E1", "unknownfoo123"⟩)
      (fun _ => []) (fun _ => []) "papers related to unknownfoo123" "unknownfoo123").2.1
    ⟨"E1", "unknownfoo123"⟩ (by decide) (by decide) (by decide) rfl,
   (run_graph_query_not_found_distinct (fun _ => none) (fun _ => []) (fun _ => [])
      "papers related to unknownfoo123" "unknownfoo123").2.2
    ⟨"E1", "unknownfoo123"⟩ [] "Entity \x27unknownfoo123\x27 not found"⟩

/-! ## Claim C10: the cached related-papers wrapper under backend failure -/

/-- Claim C10 (amended): a backend failure on a cache miss returns the
empty list and stores it (as most recent, evicting beyond capacity 100)
while counting one backend contact; any later call finding the key cached
returns the stored value with no backend contact; and a failing backend is
indistinguishable at this interface from one returning zero related
papers. Persistence is only as long as the entry stays in the bounded LRU
cache — it can be evicted, after which the backend is contacted again. -/
theorem cached_get_related_papers_failure
    (backend backend2 : String × ℕ → Except String (List String))
    (st : CacheState) (k : String × ℕ) (msg : String) :
    (backend k = .error msg → lookupFirst st.entries k = none →
      cached_get_related_papers 100 backend st k =
        ([], ⟨((k, []) :: st.entries).take 100, st.backend_calls + 1⟩)) ∧
    (∀ v, lookupFirst st.entries k = some v →
      cached_get_related_papers 100 backend st k =
        (v, { st with entries := (k, v) :: eraseKey st.entries k })) ∧
    (backend k = .error msg → backend2 k = .ok [] →
      cached_get_related_papers 100 backend st k =
        cached_get_related_papers 100 backend2 st k) := by
  refine ⟨?_, ?_, ?_⟩
  · intro hb hl
    simp only [cached_get_related_papers, hl, hb]
  · intro v hl
    simp only [cached_get_related_papers, hl]
  · intro hb hb2
    rcases hl : lookupFirst st.entries k with _ | v
    · simp only [cached_get_related_papers, hl, hb, hb2]
    · simp only [cached_get_related_papers, hl]

/-- Witness for C10 (amended) at a concrete failing backend: the first
call returns the empty list, stores it, and counts one backend contact;
the immediate second call is served from the cache with no new contact;
and the failing backend's call result coincides with that of a backend
returning zero papers. -/
theorem cached_get_related_papers_failure_witness :
    cached_get_related_papers 100 (fun _ => .error "boom") ⟨[], 0⟩ ("e0", 20) =
      ([], ⟨[(("e0", 20), [])], 1⟩) ∧
    cached_get_related_papers 100 (fun _ => .error "boom")
        ⟨[(("e0", 20), [])], 1⟩ ("e0", 20) = ([], ⟨[(("e0", 20), [])], 1⟩) ∧
    cached_get_related_papers 100 (fun _ => .error "boom") ⟨[], 0⟩ ("e0", 20) =
      cached_get_related_papers 100 (fun _ => .ok []) ⟨[], 0⟩ ("e0", 20) := by
  refine ⟨?_, ?_, ?_⟩
  · exact (cached_get_related_papers_failure (fun _ => .error "boom") (fun _ => .ok [])
      ⟨[], 0⟩ ("e0", 20) "boom").1 rfl rfl
  · have h := (cached_get_related_papers_failure (fun _ => .error "boom") (fun _ => .ok [])
      ⟨[(("e0", 20), [])], 1⟩ ("e0", 20) "boom").2.1 [] (by decide)
    rw [h]
    decide
  · exact (cached_get_related_papers_failure (fun _ => .error "boom") (fun _ => .ok [])
      ⟨[], 0⟩ ("e0", 20) "boom").2.2 rfl rfl

set_option maxRecDepth 40000 in
/-- Counterexample for C10 as stated: with a failing backend, the first
call on `("e0", 20)` contacts the backend (1 contact); 100 further calls
on distinct keys evict the entry from the `maxsize=100` LRU cache
(101 contacts); the next call with the same arguments `("e0", 20)` then
re-contacts the backend (102 contacts) instead of answering from the
cache — the stored empty result does *not* persist for the rest of the
process lifetime, though the call still returns the empty result. -/
theorem cached_eviction_recontacts :
    (runCachedCalls 100 (fun _ => .error "boom")
        (("e0", 20) :: (List.range 100).map (fun i => ("d", i)))).backend_calls = 101 ∧
    (cached_get_related_papers 100 (fun _ => .error "boom")
        (runCachedCalls 100 (fun _ => .error "boom")
          (("e0", 20) :: (List.range 100).map (fun i => ("d", i)))) ("e0", 20)).1 = [] ∧
    (cached_get_related_papers 100 (fun _ => .error "boom")
        (runCachedCalls 100 (fun _ => .error "boom")
          (("e0", 20) :: (List.range 100).map (fun i => ("d", i))))
        ("e0", 20)).2.backend_calls = 102 := by
  refine ⟨by decide, by decide, by decide⟩

/-! ## Claim C9: NL-to-Cypher conversion is first-match,
template-exact, and parameter-bound -/

theorem convertGo_none (rm : String → String → Option (List (Option String)))
    (q : String) :
    ∀ rules : List CypherRule, (∀ r ∈ rules, rm r.pattern q = none) →
      convertGo rm q rules = .ok (none, none, none) := by
  intro rules
  induction rules with
  | nil => intro _; rfl
  | cons r rest ih =>
    intro h
    simp only [convertGo, h r (List.mem_cons_self _ _)]
    exact ih (fun r' h' => h r' (List.mem_cons_of_mem _ h'))

theorem convertGo_append (rm : String → String → Option (List (Option String)))
    (q : String) :
    ∀ (pre : List CypherRule) (r : CypherRule) (post : List CypherRule)
      (gs : List (Option String)),
      (∀ r' ∈ pre, rm r'.pattern q = none) → rm r.pattern q = some gs →
      convertGo rm q (pre ++ r :: post) = buildRuleResult rm q r gs := by
  intro pre
  induction pre with
  | nil =>
    intro r post gs _ hr
    simp only [List.nil_append, convertGo, hr]
  | cons p rest ih =>
    intro r post gs hpre hr
    simp only [List.cons_append, convertGo, hpre p (List.mem_cons_self _ _)]
    exact ih r post gs (fun r' h' => hpre r' (List.mem_cons_of_mem _ h')) hr

theorem buildRuleResult_cypher (rm : String → String → Option (List (Option String)))
    (q : String) (r : CypherRule) (gs : List (Option String))
    (out : Option String × Option String × Option (List (String × ParamValue)))
    (h : buildRuleResult rm q r gs = .ok out) :
    ∃ expl params, out = (some r.cypher, some expl, some params) := by
  unfold buildRuleResult at h
  repeat' split at h
  all_goals
    first
      | exact Except.noConfusion h
      | exact ⟨_, _, (Except.ok.inj h).symm⟩

/-- Claim C9: `convert` tries the fixed rule list in order and the first
matching pattern wins; when no pattern matches it returns the explicit
no-match signal `(None, None, None)`; and whenever it returns a query, the
Cypher text is exactly the matched rule's fixed template constant — the
captured groups only ever flow into the separate bound-parameter dict (and
the human-readable explanation), never into the query text. -/
theorem convert_first_match_template (rm : String → String → Option (List (Option String)))
    (q : String) :
    ((∀ r ∈ nlPatterns, rm r.pattern (pyStrip (pyLower q)) = none) →
      convert rm q = .ok (none, none, none)) ∧
    (∀ (pre : List CypherRule) (r : CypherRule) (post : List CypherRule)
        (gs : List (Option String)),
      nlPatterns = pre ++ r :: post →
      (∀ r' ∈ pre, rm r'.pattern (pyStrip (pyLower q)) = none) →
      rm r.pattern (pyStrip (pyLower q)) = some gs →
      convert rm q = .error () ∨
        ∃ expl params, convert rm q = .ok (some r.cypher, some expl, some params)) := by
  constructor
  · intro h
    exact convertGo_none rm _ nlPatterns h
  · intro pre r post gs hsplit hpre hr
    have hgo := convertGo_append rm (pyStrip (pyLower q)) pre r post gs hpre hr
    have hc : convert rm q = buildRuleResult rm (pyStrip (pyLower q)) r gs := by
      rw [show convert rm q = convertGo rm (pyStrip (pyLower q)) nlPatterns from rfl,
        hsplit, hgo]
    rcases hb : buildRuleResult rm (pyStrip (pyLower q)) r gs with e | out
    · left
      rw [hc, hb]
    · right
      obtain ⟨expl, params, rfl⟩ := buildRuleResult_cypher rm _ r gs out hb
      exact ⟨expl, params, by rw [hc, hb]⟩

/-- Witness for C9: a regex oracle matching only the first rule on the
(lowered, stripped) query `"what affects bone?"` with captured group
`"bone?"` makes `convert` return the first rule's template verbatim; an
oracle matching nothing yields the `(None, None, None)` signal. -/
theorem convert_first_match_template_witness :
    (convert
        (fun pat s =>
          if pat = "what (?:affects|impacts|influences) (.+)" ∧ s = "what affects bone?"
          then some [some "bone?"] else none)
        "What affects bone?" = Except.error () ∨
      ∃ expl params, convert
        (fun pat s =>
          if pat = "what (?:affects|impacts|influences) (.+)" ∧ s = "what affects bone?"
          then some [some "bone?"] else none)
        "What affects bone?" =
          .ok (some (nlPatterns.headD ⟨"", "", ""⟩).cypher, some expl, some params)) ∧
    convert (fun _ _ => none) "nonsense" = .ok (none, none, none) :=
  ⟨(convert_first_match_template
      (fun pat s =>
        if pat = "what (?:affects|impacts|influences) (.+)" ∧ s = "what affects bone?"
        then some [some "bone?"] else none)
      "What affects bone?").2 [] (nlPatterns.headD ⟨"", "", ""⟩) nlPatterns.tail
    [some "bone?"] (by rfl) (by simp) (by decide),
   (convert_first_match_template (fun _ _ => none) "nonsense").1 (fun r _ => rfl)⟩

end BioSpace
